import Mathlib

/-!
# llbasic: token model, parse-tree node model and the C++ backend

A shallow embedding of

* `src/llb_frontend/llb_token.h`  (tokens, payload accessors, the token list),
* `src/llb_frontend/llb_fail.h`   (the fail value),
* `src/llb_frontend/llb_pt.h`     (node model, runtime type tags, visitor dispatch,
  the program container),
* `src/llb_backend_cpp/llb_backend_cpp.cpp` (the code generator),

followed by the properties proved about them.

Conventions of the embedding:

* a C++ `assert` that fails, and a `throw llb_fail_t`, are the two constructors of
  `fault`; code that can do either returns `Except fault _`;
* member state is passed explicitly (`llb_backend_cpp_t`, `rtti_t`);
* `std::vector` is `List`, a `shared_ptr` that the code tests for null is `Option`;
* `uint32_t` arithmetic is `Nat` arithmetic modulo `2 ^ 32`.
-/

namespace llb_frontend

/-! ## llb_token.h -/

/-- Modelled from the spec: `llb_token_types.h` is not among the sources.  The
constructors with a name are the token types the sources mention; `tok_other n`
stands for every further entry of the table. -/
inductive token_type_t where
  | tok_eof
  | tok_identifier
  | tok_lit_integer
  | tok_lit_float
  | tok_lit_string
  | tok_chr_assign
  | tok_other (n : Nat)
  deriving DecidableEq, Repr

/-- A C `float` payload.  Only its identity matters here, it is kept as its bit
pattern. -/
structure float_t where
  bits : Nat
  deriving DecidableEq, Repr

/-- The struct `location_t` of the absent `llb_location.h`: a line and a column. -/
structure location_t where
  line_ : Nat
  column_ : Nat
  deriving DecidableEq, Repr

/-- The struct `llb_fail_t` of `llb_fail.h`. -/
structure llb_fail_t where
  msg_ : String
  location_ : location_t
  deriving DecidableEq, Repr

/-- The two ways a call can end without returning: a failed `assert`, or a thrown
`llb_fail_t`. -/
inductive fault where
  | assertion
  | thrown (f : llb_fail_t)
  deriving DecidableEq, Repr

/-- The struct `token_t::value_t`. -/
structure value_t where
  int_ : Int
  float_ : float_t
  string_ : String
  deriving DecidableEq, Repr

/-- The struct `token_t`. -/
structure token_t where
  type_ : token_type_t
  value_ : value_t
  line_ : Nat
  column_ : Nat
  deriving DecidableEq, Repr

/-- The constructor `token_t::token_t(token_type_t)` together with the default
constructor of `value_t`. -/
def token_t.new (type : token_type_t) : token_t :=
  { type_ := type, value_ := { int_ := 0, float_ := ⟨0⟩, string_ := "" }, line_ := 0, column_ := 0 }

/-- The accessor `token_t::get_string`. -/
def token_t.get_string (t : token_t) : Except fault String :=
  match t.type_ with
  | .tok_lit_string => .ok t.value_.string_
  | .tok_identifier => .ok t.value_.string_
  | _ => .error .assertion

/-- The accessor `token_t::set_string`. -/
def token_t.set_string (t : token_t) (str : String) : Except fault token_t :=
  match t.type_ with
  | .tok_lit_string => .ok { t with value_ := { t.value_ with string_ := str } }
  | .tok_identifier => .ok { t with value_ := { t.value_ with string_ := str } }
  | _ => .error .assertion

/-- The accessor `token_t::get_int`. -/
def token_t.get_int (t : token_t) : Except fault Int :=
  match t.type_ with
  | .tok_lit_integer => .ok t.value_.int_
  | _ => .error .assertion

/-- The accessor `token_t::set_int`. -/
def token_t.set_int (t : token_t) (v : Int) : Except fault token_t :=
  match t.type_ with
  | .tok_lit_integer => .ok { t with value_ := { t.value_ with int_ := v } }
  | _ => .error .assertion

/-- The accessor `token_t::get_float`. -/
def token_t.get_float (t : token_t) : Except fault float_t :=
  match t.type_ with
  | .tok_lit_float => .ok t.value_.float_
  | _ => .error .assertion

/-- The accessor `token_t::set_float`. -/
def token_t.set_float (t : token_t) (v : float_t) : Except fault token_t :=
  match t.type_ with
  | .tok_lit_float => .ok { t with value_ := { t.value_ with float_ := v } }
  | _ => .error .assertion

/-! ## llb_token.h: the token list -/

/-- How a member of `token_list_t` can end without returning: a failed `assert`, or a
read of `list_` outside its bounds (`list_[index_]` is unchecked in the source, so
this is undefined behaviour there). -/
inductive list_fault where
  | assertion
  | out_of_bounds
  deriving DecidableEq, Repr

/-- The members of the class `token_list_t`; `index_` is a `uint32_t`. -/
structure token_list_t where
  index_ : Nat
  list_ : List token_t
  deriving DecidableEq, Repr

/-- The constructor `token_list_t::token_list_t()`. -/
def token_list_t.new : token_list_t := { index_ := 0, list_ := [] }

/-- The member `token_list_t::push`. -/
def token_list_t.push (t : token_t) (l : token_list_t) : token_list_t :=
  { l with list_ := l.list_ ++ [t] }

/-- The member `token_list_t::head`: `list_[index_]`. -/
def token_list_t.head (l : token_list_t) : Except list_fault token_t :=
  match l.list_[l.index_]? with
  | some t => .ok t
  | none => .error .out_of_bounds

/-- The member `token_list_t::at_eof`. -/
def token_list_t.at_eof (l : token_list_t) : Except list_fault Bool :=
  match l.list_[l.index_]? with
  | some t => .ok (t.type_ == .tok_eof)
  | none => .error .out_of_bounds

/-- The member `token_list_t::pop()`. -/
def token_list_t.pop (l : token_list_t) : Except list_fault (token_t × token_list_t) := do
  let tok ← l.head
  let l := if tok.type_ ≠ .tok_eof then { l with index_ := (l.index_ + 1) % 2 ^ 32 } else l
  if l.index_ < l.list_.length then .ok (tok, l) else .error .assertion

/-- The member `token_list_t::found`. -/
def token_list_t.found (type : token_type_t) (l : token_list_t) :
    Except list_fault (Bool × token_list_t) := do
  let head ← l.head
  if head.type_ ≠ type then .ok (false, l)
  else
    let l := { l with index_ := (l.index_ + 1) % 2 ^ 32 }
    if l.index_ < l.list_.length then .ok (true, l) else .error .assertion

/-- The member `pop()` called `n` times in a row: the tokens returned, in call order,
and the list after the last call. -/
def token_list_t.pops : Nat → token_list_t → Except list_fault (List token_t × token_list_t)
  | 0, l => .ok ([], l)
  | n + 1, l => do
    let r ← l.pop
    let rest ← token_list_t.pops n r.2
    pure (r.1 :: rest.1, rest.2)

/-- A call of one of the two members that move the cursor: `pop()` or `found(type)`. -/
inductive call_t where
  | pop
  | found (type : token_type_t)
  deriving DecidableEq, Repr

/-- The token list after one call, the returned value dropped. -/
def token_list_t.call (c : call_t) (l : token_list_t) : Except list_fault token_list_t :=
  match c with
  | .pop => l.pop.map (fun r => r.2)
  | .found type => (l.found type).map (fun r => r.2)

/-- The token list after a finite sequence of calls, made one after the other; the
sequence stops at the first call that does not return. -/
def token_list_t.calls : List call_t → token_list_t → Except list_fault token_list_t
  | [], l => .ok l
  | c :: rest, l => do
    let l ← l.call c
    token_list_t.calls rest l

/-- The last token of the list is a terminal marker and the cursor is in bounds. -/
def token_list_t.ready (l : token_list_t) : Prop :=
  (∃ t, l.list_.getLast? = some t ∧ t.type_ = .tok_eof) ∧ l.index_ < l.list_.length

/-- A sample token list: an identifier, then the terminal marker; cursor at the start. -/
def sample_tokens : token_list_t :=
  { index_ := 0, list_ := [token_t.new .tok_identifier, token_t.new .tok_eof] }

/-- The sample token list with the cursor on the terminal marker. -/
def sample_tokens_at_marker : token_list_t := { sample_tokens with index_ := 1 }

/-! ## llb_pt.h: runtime type tags -/

/-- The fifteen node structs that `llb_pt.h` defines, each of which carries
`HAS_RTTI` and `VISITABLE`. -/
inductive pt_kind where
  | pt_module_t
  | pt_op_bin_t
  | pt_op_ury_t
  | pt_literal_t
  | pt_identifier_t
  | pt_return_t
  | pt_while_t
  | pt_decl_function_t
  | pt_assign_t
  | pt_call_t
  | pt_if_t
  | pt_break_t
  | pt_continue_t
  | pt_expr_t
  | pt_decl_var_t
  deriving DecidableEq, Repr, Fintype

/-- The string a struct passes to `HAS_RTTI`. -/
def pt_kind.rtti_name : pt_kind → String
  | .pt_module_t => "pt_module_t"
  | .pt_op_bin_t => "pt_op_bin_t"
  | .pt_op_ury_t => "pt_op_ury_t"
  | .pt_literal_t => "pt_literal_t"
  | .pt_identifier_t => "pt_identifier_t"
  | .pt_return_t => "pt_return_t"
  | .pt_while_t => "pt_while_t"
  | .pt_decl_function_t => "pt_decl_function_t"
  | .pt_assign_t => "pt_assign_t"
  | .pt_call_t => "pt_call_t"
  | .pt_if_t => "pt_if_t"
  | .pt_break_t => "pt_break_t"
  | .pt_continue_t => "pt_continue_t"
  | .pt_expr_t => "pt_expr_t"
  | .pt_decl_var_t => "pt_decl_var_t"

/-- The struct `pt_node_t::type_t`. -/
structure type_t where
  id_ : Nat
  name_ : String
  deriving DecidableEq, Repr

/-- The comparison `type_t::operator ==`. -/
def type_t.eq (a b : type_t) : Bool := a.id_ == b.id_

/-- The process-wide statics behind the tags: the counter `static uint32_t id` of
`new_id`, and for each struct the function-local `static type_t type` of its
`get_type_static` (`none` until the first call constructs it). -/
structure rtti_t where
  id : Nat
  type : pt_kind → Option type_t

/-- The statics at process start. -/
def rtti_t.start : rtti_t := { id := 0, type := fun _ => none }

/-- The function `type_t::new_id`: `return id++` on a `uint32_t`. -/
def new_id (s : rtti_t) : Nat × rtti_t :=
  (s.id, { s with id := (s.id + 1) % 2 ^ 32 })

/-- The constructor `type_t::type_t(name)`. -/
def type_t.new (name : String) (s : rtti_t) : type_t × rtti_t :=
  let r := new_id s
  ({ id_ := r.1, name_ := name }, r.2)

/-- The function `get_type_static` that `HAS_RTTI` gives the struct `k`. -/
def get_type_static (k : pt_kind) (s : rtti_t) : type_t × rtti_t :=
  match s.type k with
  | some t => (t, s)
  | none =>
    let r := type_t.new k.rtti_name s
    (r.1, { r.2 with type := Function.update r.2.type k (some r.1) })

/-- The statics after the tags were requested in the order `reqs`. -/
def rtti_t.after (reqs : List pt_kind) : rtti_t :=
  reqs.foldl (fun s k => (get_type_static k s).2) rtti_t.start

/-- The statics are consistent: the counter counts the tags handed out, every tag
handed out is below the counter, and no two structs hold the same tag. -/
structure rtti_t.wf (s : rtti_t) : Prop where
  count : s.id = (Finset.univ.filter (fun k => (s.type k).isSome = true)).card
  below : ∀ k t, s.type k = some t → t.id_ < s.id
  inj : ∀ k k' t t', s.type k = some t → s.type k' = some t' → t.id_ = t'.id_ → k = k'

/-! ## llb_pt.h: nodes -/

/-- The enum `pt_decl_var_t::scope_t`. -/
inductive scope_t where
  | e_unknown
  | e_global
  | e_local
  | e_arg
  deriving DecidableEq, Repr

/-- The node structs of `llb_pt.h`; a constructor per struct, its arguments the
struct's members in declaration order (the `ext_` annotation slots, which hold
weak back-references, are left out).  A `shared_pt_node_t` is an `Option`. -/
inductive pt_node_t where
  | pt_module_t (functions_ globals_ : List (Option pt_node_t))
  | pt_op_bin_t (operator_ : token_t) (lhs_ rhs_ : Option pt_node_t)
  | pt_op_ury_t (operator_ : token_t) (child_ : Option pt_node_t)
  | pt_literal_t (value_ : token_t)
  | pt_identifier_t (name_ : token_t)
  | pt_return_t (expr_ : Option pt_node_t)
  | pt_while_t (expr_ : Option pt_node_t) (stmt_ : List (Option pt_node_t))
  | pt_decl_function_t (name_ ret_type_ : token_t) (args_ stmt_ : List (Option pt_node_t))
  | pt_assign_t (name_ : token_t) (expr_ : Option pt_node_t)
  | pt_call_t (name_ : token_t) (arg_ : List (Option pt_node_t))
  | pt_if_t (expr_ : Option pt_node_t) (stmt_1_ stmt_0_ : List (Option pt_node_t))
  | pt_break_t
  | pt_continue_t
  | pt_expr_t (expr_ : Option pt_node_t)
  | pt_decl_var_t (scope_ : scope_t) (name_ type_ : token_t) (expr_ : Option pt_node_t)

/-- The struct a node was constructed as: which `HAS_RTTI` its virtual `get_type`
comes from. -/
def pt_node_t.kind : pt_node_t → pt_kind
  | .pt_module_t .. => .pt_module_t
  | .pt_op_bin_t .. => .pt_op_bin_t
  | .pt_op_ury_t .. => .pt_op_ury_t
  | .pt_literal_t .. => .pt_literal_t
  | .pt_identifier_t .. => .pt_identifier_t
  | .pt_return_t .. => .pt_return_t
  | .pt_while_t .. => .pt_while_t
  | .pt_decl_function_t .. => .pt_decl_function_t
  | .pt_assign_t .. => .pt_assign_t
  | .pt_call_t .. => .pt_call_t
  | .pt_if_t .. => .pt_if_t
  | .pt_break_t => .pt_break_t
  | .pt_continue_t => .pt_continue_t
  | .pt_expr_t .. => .pt_expr_t
  | .pt_decl_var_t .. => .pt_decl_var_t

/-- The virtual `get_type` of `HAS_RTTI`: `return get_type_static()` of the node's
own struct. -/
def pt_node_t.get_type (n : pt_node_t) (s : rtti_t) : type_t × rtti_t :=
  get_type_static n.kind s

/-- The member template `pt_node_t::is_a<type_t>`:
`get_type() == type_t::get_type_static()`. -/
def pt_node_t.is_a (W : pt_kind) (n : pt_node_t) (s : rtti_t) : Bool × rtti_t :=
  let a := n.get_type s
  let b := get_type_static W a.2
  (a.1.eq b.1, b.2)

/-- The member template `pt_node_t::upcast<type_t>`: null (`none`) unless
`is_a<type_t>()`, else `this` seen as a `type_t *`. -/
def pt_node_t.upcast (W : pt_kind) (n : pt_node_t) (s : rtti_t) : Option pt_node_t × rtti_t :=
  let r := n.is_a W s
  if !r.1 then (none, r.2) else (some n, r.2)

/-! ## llb_pt.h: the constructor of `pt_decl_var_t` -/

/-- The constructor `pt_decl_var_t::pt_decl_var_t(scope, name, type, expr)`: its
initialiser list is `scope_( e_unknown ), name_( name ), type_( type ), expr_( expr )`. -/
def pt_node_t.new_pt_decl_var_t (scope : scope_t) (name type : token_t)
    (expr : Option pt_node_t) : pt_node_t :=
  let _ := scope
  .pt_decl_var_t .e_unknown name type expr

/-- The member `scope_` of a node, when it is a `pt_decl_var_t`. -/
def pt_node_t.scope_ : pt_node_t → Option scope_t
  | .pt_decl_var_t scope_ _ _ _ => some scope_
  | _ => none

/-! ## llb_pt.h: the program container `pt_t` -/

/-- The class `pt_t`: the member `stack_`.  Both `push` overloads assert that the
pointer is not null before they store it, so the entries are nodes. -/
structure pt_t where
  stack_ : List pt_node_t

/-- The member `pt_t::push` (both overloads): `assert` that the pointer is not null,
then `stack_.push_back`. -/
def pt_t.push (node_ptr : Option pt_node_t) (c : pt_t) : Except fault pt_t :=
  match node_ptr with
  | none => .error .assertion
  | some node => .ok { stack_ := c.stack_ ++ [node] }

/-- The member `pt_t::top`: `assert( stack_.size() > 0 )`, then `*stack_.rbegin()`.
It returns the node and has no effect on the container. -/
def pt_t.top (c : pt_t) : Except fault pt_node_t :=
  if c.stack_.length > 0 then
    match c.stack_.getLast? with
    | some node => .ok node
    | none => .error .assertion
  else .error .assertion

/-- The member `pt_t::pop`: `assert( stack_.size() > 0 )`, `top()`, `pop_back()`. -/
def pt_t.pop (c : pt_t) : Except fault (pt_node_t × pt_t) :=
  if c.stack_.length > 0 then do
    let node ← c.top
    pure (node, { stack_ := c.stack_.dropLast })
  else .error .assertion

/-- The member `pt_t::index`: `uint32_t( stack_.size() )`. -/
def pt_t.index (c : pt_t) : Nat := c.stack_.length % 2 ^ 32

/-! ## llb_pt.h: visitor dispatch -/

/-- The class `pt_node_visitor_t`: one pure virtual `visit` per node struct, in the
order of the class body.  A handler receives the node and the visitor's state. -/
structure pt_node_visitor_t (σ : Type) where
  visit_pt_module_t : pt_node_t → σ → σ
  visit_pt_literal_t : pt_node_t → σ → σ
  visit_pt_identifier_t : pt_node_t → σ → σ
  visit_pt_decl_function_t : pt_node_t → σ → σ
  visit_pt_decl_var_t : pt_node_t → σ → σ
  visit_pt_op_bin_t : pt_node_t → σ → σ
  visit_pt_op_ury_t : pt_node_t → σ → σ
  visit_pt_if_t : pt_node_t → σ → σ
  visit_pt_while_t : pt_node_t → σ → σ
  visit_pt_return_t : pt_node_t → σ → σ
  visit_pt_break_t : pt_node_t → σ → σ
  visit_pt_continue_t : pt_node_t → σ → σ
  visit_pt_assign_t : pt_node_t → σ → σ
  visit_pt_call_t : pt_node_t → σ → σ
  visit_pt_expr_t : pt_node_t → σ → σ

/-- The virtual `accept` that `VISITABLE` gives each struct: `visitor.visit(*this)`,
where the static type of `*this` is the struct the macro is expanded in. -/
def pt_node_t.accept {σ : Type} (n : pt_node_t) (visitor : pt_node_visitor_t σ) : σ → σ :=
  match n with
  | .pt_module_t .. => visitor.visit_pt_module_t n
  | .pt_op_bin_t .. => visitor.visit_pt_op_bin_t n
  | .pt_op_ury_t .. => visitor.visit_pt_op_ury_t n
  | .pt_literal_t .. => visitor.visit_pt_literal_t n
  | .pt_identifier_t .. => visitor.visit_pt_identifier_t n
  | .pt_return_t .. => visitor.visit_pt_return_t n
  | .pt_while_t .. => visitor.visit_pt_while_t n
  | .pt_decl_function_t .. => visitor.visit_pt_decl_function_t n
  | .pt_assign_t .. => visitor.visit_pt_assign_t n
  | .pt_call_t .. => visitor.visit_pt_call_t n
  | .pt_if_t .. => visitor.visit_pt_if_t n
  | .pt_break_t => visitor.visit_pt_break_t n
  | .pt_continue_t => visitor.visit_pt_continue_t n
  | .pt_expr_t .. => visitor.visit_pt_expr_t n
  | .pt_decl_var_t .. => visitor.visit_pt_decl_var_t n

/-- The overload of `visit` whose parameter type is the struct `k`. -/
def pt_node_visitor_t.overload {σ : Type} (visitor : pt_node_visitor_t σ) :
    pt_kind → pt_node_t → σ → σ
  | .pt_module_t => visitor.visit_pt_module_t
  | .pt_literal_t => visitor.visit_pt_literal_t
  | .pt_identifier_t => visitor.visit_pt_identifier_t
  | .pt_decl_function_t => visitor.visit_pt_decl_function_t
  | .pt_decl_var_t => visitor.visit_pt_decl_var_t
  | .pt_op_bin_t => visitor.visit_pt_op_bin_t
  | .pt_op_ury_t => visitor.visit_pt_op_ury_t
  | .pt_if_t => visitor.visit_pt_if_t
  | .pt_while_t => visitor.visit_pt_while_t
  | .pt_return_t => visitor.visit_pt_return_t
  | .pt_break_t => visitor.visit_pt_break_t
  | .pt_continue_t => visitor.visit_pt_continue_t
  | .pt_assign_t => visitor.visit_pt_assign_t
  | .pt_call_t => visitor.visit_pt_call_t
  | .pt_expr_t => visitor.visit_pt_expr_t

/-- A visitor that records every handler invocation: the handler for the struct `k`
appends `k` to the log. -/
def recorder : pt_node_visitor_t (List pt_kind) where
  visit_pt_module_t := fun _ log => log ++ [.pt_module_t]
  visit_pt_literal_t := fun _ log => log ++ [.pt_literal_t]
  visit_pt_identifier_t := fun _ log => log ++ [.pt_identifier_t]
  visit_pt_decl_function_t := fun _ log => log ++ [.pt_decl_function_t]
  visit_pt_decl_var_t := fun _ log => log ++ [.pt_decl_var_t]
  visit_pt_op_bin_t := fun _ log => log ++ [.pt_op_bin_t]
  visit_pt_op_ury_t := fun _ log => log ++ [.pt_op_ury_t]
  visit_pt_if_t := fun _ log => log ++ [.pt_if_t]
  visit_pt_while_t := fun _ log => log ++ [.pt_while_t]
  visit_pt_return_t := fun _ log => log ++ [.pt_return_t]
  visit_pt_break_t := fun _ log => log ++ [.pt_break_t]
  visit_pt_continue_t := fun _ log => log ++ [.pt_continue_t]
  visit_pt_assign_t := fun _ log => log ++ [.pt_assign_t]
  visit_pt_call_t := fun _ log => log ++ [.pt_call_t]
  visit_pt_expr_t := fun _ log => log ++ [.pt_expr_t]

end llb_frontend

namespace llb_backend_cpp

open llb_frontend (token_type_t token_t float_t llb_fail_t location_t fault)

/-! ## The collaborators of the backend that are not among the sources

The backend names the token struct `llb_token_t` and its type enum
`llb_token_type_t`; the header that declares them is not among the sources, and they
are taken to be `token_t` and `token_type_t` of `src/llb_frontend/llb_token.h`, whose
members and accessors are the ones the backend uses. -/

/-- Modelled from the spec: the `llb_pt.h` that the backend is written against
(`pt_function_decl_t` with a `body_`, `pt_function_body_t`, `pt_stmt_t`, a named
module) is not among the sources.  The constructors are the closed variant set of
the spec (Module, FunctionDecl, FunctionBody, VarDecl, ExprStatement, BinaryOp,
UnaryOp, Literal, Identifier, Return, If, While, Break, Continue, Assign, Call);
the members are those the backend reads, and for the variants it never looks into,
those of the struct of the same name in `src/llb_frontend/llb_pt.h`.  A pointer is
an `Option` exactly where the backend tests it for null. -/
inductive pt_node_t where
  | pt_module_t (name_ : String) (functions_ globals_ : List pt_node_t)
  | pt_function_decl_t (name_ ret_type_ : token_t) (args_ : List pt_node_t)
      (body_ : Option pt_node_t)
  | pt_function_body_t (locals_ stmt_ : List pt_node_t)
  | pt_decl_var_t (name_ type_ : token_t) (expr_ : Option pt_node_t)
  | pt_stmt_t (expr_ : pt_node_t)
  | pt_op_bin_t (operator_ : token_t) (lhs_ rhs_ : pt_node_t)
  | pt_op_ury_t (operator_ : token_t) (child_ : pt_node_t)
  | pt_literal_t (value_ : token_t)
  | pt_identifier_t (name_ : token_t)
  | pt_return_t (expr_ : Option pt_node_t)
  | pt_if_t (expr_ : pt_node_t) (stmt_1_ stmt_0_ : List pt_node_t)
  | pt_while_t (expr_ : pt_node_t) (stmt_ : List pt_node_t)
  | pt_break_t
  | pt_continue_t
  | pt_assign_t (name_ : token_t) (expr_ : pt_node_t)
  | pt_call_t (name_ : token_t) (arg_ : List pt_node_t)

/-- What `upcast<pt_module_t>()` gives access to. -/
structure pt_module_t where
  name_ : String
  functions_ : List pt_node_t
  globals_ : List pt_node_t

/-- What `upcast<pt_function_decl_t>()` gives access to. -/
structure pt_function_decl_t where
  name_ : token_t
  ret_type_ : token_t
  args_ : List pt_node_t
  body_ : Option pt_node_t

/-- What `upcast<pt_function_body_t>()` gives access to (`locals_` is `ext_.locals_`). -/
structure pt_function_body_t where
  locals_ : List pt_node_t
  stmt_ : List pt_node_t

/-- What `upcast<pt_decl_var_t>()` gives access to. -/
structure pt_decl_var_t where
  name_ : token_t
  type_ : token_t
  expr_ : Option pt_node_t

/-- The checked downcast `upcast<pt_module_t>()`; `none` is the null pointer, which
is also exactly when `is_a<pt_module_t>()` is false. -/
def upcast_pt_module_t : pt_node_t → Option pt_module_t
  | .pt_module_t name_ functions_ globals_ => some ⟨name_, functions_, globals_⟩
  | _ => none

/-- The checked downcast `upcast<pt_function_decl_t>()`. -/
def upcast_pt_function_decl_t : pt_node_t → Option pt_function_decl_t
  | .pt_function_decl_t name_ ret_type_ args_ body_ => some ⟨name_, ret_type_, args_, body_⟩
  | _ => none

/-- The checked downcast `upcast<pt_function_body_t>()`. -/
def upcast_pt_function_body_t : pt_node_t → Option pt_function_body_t
  | .pt_function_body_t locals_ stmt_ => some ⟨locals_, stmt_⟩
  | _ => none

/-- The checked downcast `upcast<pt_decl_var_t>()`. -/
def upcast_pt_decl_var_t : pt_node_t → Option pt_decl_var_t
  | .pt_decl_var_t name_ type_ expr_ => some ⟨name_, type_, expr_⟩
  | _ => none

/-- The class `pt_t` as the backend uses it: the sequence `stack_`. -/
structure pt_t where
  stack_ : List pt_node_t

/-- The struct `llb_context_t` of the absent `llb_context.h`, as far as the backend
uses it: the member `pt_`. -/
structure llb_context_t where
  pt_ : pt_t

/-- The functions the backend calls whose code is not among the sources, taken as
parameters.

* `get_type_symbol`: the static `llb_token_t::get_type_symbol` (printable symbol of
  a token type);
* `float_text`, `int_text`: how the text writer renders a `float` and an `int`
  argument of `print`;
* `walker`: the handlers the backend inherits from `llb_pt_walker_t` without
  overriding them.  Such a handler reaches the output buffer only through the
  backend's own printing handlers, so what it does to the backend is to append a text
  that depends on the node, or to raise;
* `open_`: whether `file_writer_t::open` succeeds on a path. -/
structure env_t where
  get_type_symbol : token_type_t → String
  float_text : float_t → String
  int_text : Int → String
  walker : pt_node_t → Except fault String
  open_ : String → Bool

/-! ## The text writer `out_` (llb_string.h, not among the sources) -/

/-- Modelled from the spec: the substitution done by `print(fmt, {args})` of the
absent text writer.  `%N` (N a digit) stands for the N-th argument, every other
character is passed through. -/
def format_chars : List Char → List String → List Char
  | '%' :: d :: rest, args =>
    if d.isDigit then (args.getD (d.toNat - 48) "").data ++ format_chars rest args
    else '%' :: format_chars (d :: rest) args
  | c :: rest, args => c :: format_chars rest args
  | [], _ => []

/-- Modelled from the spec: the text `print(fmt, {args})` appends. -/
def format (fmt : String) (args : List String) : String :=
  ⟨format_chars fmt.data args⟩

namespace writer

/-- Modelled from the spec: `print(text)` of the absent text writer appends the text
as it is (an identifier is emitted "verbatim", an operator as its "printable
symbol"). -/
def print (text : String) (out : String) : String := out ++ text

/-- Modelled from the spec: `print(fmt, {args})` appends the formatted text. -/
def print_fmt (fmt : String) (args : List String) (out : String) : String :=
  out ++ format fmt args

/-- Modelled from the spec: `new_line()` appends a line break. -/
def new_line (out : String) : String := out ++ "\n"

/-- Modelled from the spec: `println(text)` is `print(text)` then a line break. -/
def println (text : String) (out : String) : String := new_line (print text out)

/-- Modelled from the spec: `println(fmt, {args})` is `print(fmt, {args})` then a
line break. -/
def println_fmt (fmt : String) (args : List String) (out : String) : String :=
  new_line (print_fmt fmt args out)

/-- Modelled from the spec: `put_char(c)` appends one character. -/
def put_char (c : Char) (out : String) : String := out ++ String.singleton c

/-- Modelled from the spec: `fill(c, n)` appends `n` copies of `c`. -/
def fill (c : Char) (n : Nat) (out : String) : String := out ++ ⟨List.replicate n c⟩

/-- Modelled from the spec: `to_string()` is the accumulated text. -/
def to_string (out : String) : String := out

end writer

/-! ## llb_backend_cpp.cpp -/

/-- The members of the class `llb_backend_cpp_t`. -/
structure llb_backend_cpp_t where
  path_ : String
  out_ : String
  cxt_ : Option llb_context_t
  indent_ : Nat

/-- The constructor `llb_backend_cpp_t::llb_backend_cpp_t()`. -/
def llb_backend_cpp_t.new : llb_backend_cpp_t :=
  { path_ := "out.cpp", out_ := "", cxt_ := none, indent_ := 0 }

/-- A call `out_.f(...)` on the member `out_`. -/
def llb_backend_cpp_t.out (b : llb_backend_cpp_t) (f : String → String) : llb_backend_cpp_t :=
  { b with out_ := f b.out_ }

/-- A member function that emits: it changes the backend, or fails. -/
abbrev emit_t := llb_backend_cpp_t → Except fault llb_backend_cpp_t

/-- A range-based `for` whose body is `f`. -/
def for_each {α : Type} (f : α → emit_t) : List α → emit_t
  | [], b => .ok b
  | a :: rest, b => do
    let b ← f a b
    for_each f rest b

/-- The body of the loop of `for_each_module`. -/
def for_each_module_step (func : pt_module_t → emit_t) (node : pt_node_t) : emit_t := fun b =>
  match upcast_pt_module_t node with
  | none => .error .assertion
  | some module => func module b

/-- The member `for_each_module`. -/
def for_each_module (func : pt_module_t → emit_t) : emit_t := fun b =>
  match b.cxt_ with
  | none => .error .assertion
  | some cxt => for_each (for_each_module_step func) cxt.pt_.stack_ b

/-- The member `emit_header`. -/
def emit_header (b : llb_backend_cpp_t) : llb_backend_cpp_t :=
  let b := b.out (writer.println "// auto generated by llbasic compiler")
  let b := b.out (writer.println "#include \"llb_runtime.h\"")
  b.out writer.new_line

/-- The loop over `func.args_` in `emit_decl`; `first` is the local of that name. -/
def emit_decl_args : Bool → List pt_node_t → emit_t
  | _, [], b => .ok b
  | first, arg_node :: rest, b => do
    let b := if !first then b.out (writer.print ", ") else b
    match upcast_pt_decl_var_t arg_node with
    | none => .error .assertion
    | some var => do
      let type ← var.type_.get_string
      let name ← var.name_.get_string
      let b := b.out (writer.print_fmt "%0 %1" [type, name])
      emit_decl_args false rest b

/-- The member `emit_decl`. -/
def emit_decl (func : pt_function_decl_t) : emit_t := fun b => do
  let b := if func.body_.isNone then b.out (writer.print "extern ")
           else b.out (writer.print "static ")
  let ret_type ← func.ret_type_.get_string
  let b := b.out (writer.print_fmt "%0 " [ret_type])
  let name ← func.name_.get_string
  let b := b.out (writer.print_fmt "%0(" [name])
  let b ← emit_decl_args true func.args_ b
  pure (b.out (writer.print ")"))

/-- The body of the loop of `emit_decls`. -/
def emit_decls_step (node : pt_node_t) : emit_t := fun b =>
  match upcast_pt_function_decl_t node with
  | none => .error .assertion
  | some decl => do
    let b ← emit_decl decl b
    let b := b.out (writer.print ";")
    pure (b.out writer.new_line)

/-- The member `emit_decls`. -/
def emit_decls (module : pt_module_t) : emit_t := fun b =>
  if module.functions_.length = 0 then .ok b
  else do
    let b := b.out (writer.println_fmt "// decls from '%0'" [module.name_])
    let b ← for_each emit_decls_step module.functions_ b
    pure (b.out writer.new_line)

/-- The member `emit_global`. -/
def emit_global (global : pt_decl_var_t) : emit_t := fun b => do
  let type ← global.type_.get_string
  let name ← global.name_.get_string
  pure (b.out (writer.print_fmt "static %0 %1" [type, name]))

/-- The body of the loop of `emit_globals`. -/
def emit_globals_step (node : pt_node_t) : emit_t := fun b =>
  match upcast_pt_decl_var_t node with
  | none => .error .assertion
  | some decl => do
    let b ← emit_global decl b
    let b := b.out (writer.print ";")
    pure (b.out writer.new_line)

/-- The member `emit_globals`. -/
def emit_globals (module : pt_module_t) : emit_t := fun b =>
  if module.globals_.length = 0 then .ok b
  else do
    let b := b.out (writer.println_fmt "// globals from '%0'" [module.name_])
    let b ← for_each emit_globals_step module.globals_ b
    pure (b.out writer.new_line)

/-- The virtual `accept` of a node applied to the backend: the `visit` overload of
the node's struct.  The overloads the backend defines are `visit(pt_stmt_t &)`,
`visit(pt_op_bin_t &)`, `visit(pt_identifier_t &)`, `visit(pt_literal_t &)` and
`visit(pt_return_t &)`; every other struct goes to the inherited walker. -/
def accept (x : env_t) : pt_node_t → emit_t
  -- visit(pt_stmt_t & stmt)
  | .pt_stmt_t expr_, b => do
    let walked ← x.walker (.pt_stmt_t expr_)
    let b := b.out (writer.print walked)
    pure (b.out (writer.put_char ';'))
  -- visit(pt_op_bin_t & n)
  | .pt_op_bin_t operator_ lhs_ rhs_, b => do
    let bracket := if operator_.type_ = .tok_chr_assign then false else true
    let b := if bracket then b.out (writer.put_char '(') else b
    let b ← accept x lhs_ b
    let b := b.out (writer.print (x.get_type_symbol operator_.type_))
    let b ← accept x rhs_ b
    pure (if bracket then b.out (writer.put_char ')') else b)
  -- visit(pt_identifier_t & n)
  | .pt_identifier_t name_, b => do
    let name ← name_.get_string
    pure (b.out (writer.print name))
  -- visit(pt_literal_t & n)
  | .pt_literal_t value_, b =>
    match value_.type_ with
    | .tok_lit_float => do
      let v ← value_.get_float
      pure (b.out (writer.print_fmt "%0f" [x.float_text v]))
    | .tok_lit_integer => do
      let v ← value_.get_int
      pure (b.out (writer.print_fmt "%0" [x.int_text v]))
    | .tok_lit_string => do
      let v ← value_.get_string
      pure (b.out (writer.print_fmt "%0" [v]))
    | _ => .error .assertion
  -- visit(pt_return_t & n)
  | .pt_return_t expr_, b => do
    let b := b.out (writer.print "return ")
    let b ← match expr_ with
      | some e => accept x e b
      | none => pure b
    pure (b.out (writer.print ";"))
  -- the overloads inherited from llb_pt_walker_t
  | n, b => do
    let walked ← x.walker n
    pure (b.out (writer.print walked))

/-- The body of the first loop of `emit_body`, over `body.ext_.locals_`. -/
def emit_body_local (loc : pt_node_t) : emit_t := fun b =>
  match upcast_pt_decl_var_t loc with
  | none => .error .assertion
  | some var => do
    let b := b.out (writer.fill ' ' (b.indent_ * 2))
    let type ← var.type_.get_string
    let name ← var.name_.get_string
    let b := b.out (writer.print_fmt "%0 %1;" [type, name])
    pure (b.out writer.new_line)

/-- The body of the second loop of `emit_body`, over `body.stmt_`. -/
def emit_body_stmt (x : env_t) (node : pt_node_t) : emit_t := fun b => do
  let b := b.out (writer.fill ' ' (b.indent_ * 2))
  let b ← accept x node b
  pure (b.out writer.new_line)

/-- The member `emit_body`. -/
def emit_body (x : env_t) (body : pt_function_body_t) : emit_t := fun b => do
  let b := { b with indent_ := b.indent_ + 1 }
  let b ← for_each emit_body_local body.locals_ b
  let b ← for_each (emit_body_stmt x) body.stmt_ b
  pure { b with indent_ := b.indent_ - 1 }

/-- The member `emit_locals`: a loop over `body.ext_.locals_` with an empty body. -/
def emit_locals (body : pt_function_body_t) : emit_t := fun b =>
  for_each (fun (_ : pt_node_t) b => .ok b) body.locals_ b

/-- The body of the loop of `emit_impls`. -/
def emit_impls_step (x : env_t) (node : pt_node_t) : emit_t := fun b =>
  match upcast_pt_function_decl_t node with
  | none => .error .assertion
  | some decl =>
    match decl.body_ with
    | none => .ok b
    | some body_ =>
      match upcast_pt_function_body_t body_ with
      | none => .error .assertion
      | some body => do
        let b ← emit_decl decl b
        let b := b.out (writer.print " \x7b")
        let b := b.out writer.new_line
        let b ← emit_locals body b
        let b ← emit_body x body b
        let b := b.out (writer.print "\x7d")
        let b := b.out writer.new_line
        pure (b.out writer.new_line)

/-- The member `emit_impls`. -/
def emit_impls (x : env_t) (module : pt_module_t) : emit_t := fun b =>
  if module.functions_.length = 0 then .ok b
  else for_each (emit_impls_step x) module.functions_ b

/-- The body of the `try` block of `run`. -/
def run_try (x : env_t) : emit_t := fun b => do
  let b := emit_header b
  let b ← for_each_module emit_decls b
  let b ← for_each_module emit_globals b
  for_each_module (emit_impls x) b

/-- How a call of `run` ends: the process is aborted by a failed `assert`, or the
call returns.  `ret` is the returned `bool`, `fail` the out-parameter as the call
leaves it, `written` the text handed to `file_writer_t::write` (`none` when the
destination was never written), `self` the backend object after the call (the
embedding does not follow the buffer through a raised failure: `none` there). -/
inductive run_outcome where
  | aborted
  | returned (ret : Bool) (fail : llb_fail_t) (written : Option String)
      (self : Option llb_backend_cpp_t)

/-- The member `run`. -/
def run (x : env_t) (modules : llb_context_t) (fail : llb_fail_t)
    (b : llb_backend_cpp_t) : run_outcome :=
  let b := { b with cxt_ := some modules }
  match run_try x b with
  | .error (.thrown thrown) => .returned false thrown none none
  | .error .assertion => .aborted
  | .ok b =>
    if !x.open_ b.path_ then .returned false fail none (some b)
    else .returned true fail (some (writer.to_string b.out_)) (some b)

/-- The text a call of `run` handed to the destination, if any. -/
def run_outcome.written : run_outcome → Option String
  | .aborted => none
  | .returned _ _ written _ => written

/-! ## Texts, for stating what is emitted -/

/-- The text an emitting member appends when it is run on the backend `b`: its
buffer afterwards, when started with an empty buffer. -/
def text_of (e : emit_t) (b : llb_backend_cpp_t) : Except fault String :=
  (e { b with out_ := "" }).map (fun b => b.out_)

/-- The texts `f` yields for the elements of a list, one after the other. -/
def blocks {α : Type} (f : α → Except fault String) : List α → Except fault String
  | [] => .ok ""
  | a :: rest => do
    let t ← f a
    let ts ← blocks f rest
    pure (t ++ ts)

/-- The module view of a node of the program container, as `for_each_module` obtains
it. -/
def as_module (node : pt_node_t) : Except fault pt_module_t :=
  match upcast_pt_module_t node with
  | none => .error .assertion
  | some module => .ok module

/-- The header text. -/
def header_text : String :=
  "// auto generated by llbasic compiler\n#include \"llb_runtime.h\"\n\n"

/-- The function-declaration view of a node, as the loops over `functions_` obtain
it. -/
def as_function_decl (node : pt_node_t) : Except fault pt_function_decl_t :=
  match upcast_pt_function_decl_t node with
  | none => .error .assertion
  | some decl => .ok decl

/-- The function-body view of a node, as `emit_impls` obtains it. -/
def as_function_body (node : pt_node_t) : Except fault pt_function_body_t :=
  match upcast_pt_function_body_t node with
  | none => .error .assertion
  | some body => .ok body

/-- The variable-declaration view of a node, as the loops over arguments, globals
and locals obtain it. -/
def as_decl_var (node : pt_node_t) : Except fault pt_decl_var_t :=
  match upcast_pt_decl_var_t node with
  | none => .error .assertion
  | some var => .ok var

/-- The storage word of a declaration header. -/
def storage (func : pt_function_decl_t) : String :=
  if func.body_.isNone then "extern " else "static "

/-- The text of a parameter list: `<type> <name>` per argument, `, ` before every
argument but the first (`first` tells whether the list starts the parameter list). -/
def args_text : Bool → List pt_node_t → Except fault String
  | _, [] => .ok ""
  | first, arg_node :: rest => do
    let var ← as_decl_var arg_node
    let type ← var.type_.get_string
    let name ← var.name_.get_string
    let more ← args_text false rest
    pure ((if first then "" else ", ") ++ type ++ " " ++ name ++ more)

/-- The indentation at nesting depth `depth`: two spaces per level. -/
def indentation (depth : Nat) : String := ⟨List.replicate (depth * 2) ' '⟩

/-- The text the backend emits for a node: what `accept` leaves in an empty buffer. -/
def lower (x : env_t) (n : pt_node_t) : Except fault String :=
  text_of (accept x n) llb_backend_cpp_t.new

/-- The text of a declaration header: storage word, return type, name and the
parenthesised parameter list. -/
def decl_text (func : pt_function_decl_t) : Except fault String := do
  let ret_type ← func.ret_type_.get_string
  let name ← func.name_.get_string
  let args ← args_text true func.args_
  pure (storage func ++ ret_type ++ " " ++ name ++ "(" ++ args ++ ")")

/-- The line of the declarations sweep for one entry of `functions_`. -/
def decl_line (node : pt_node_t) : Except fault String := do
  let decl ← as_function_decl node
  let header ← decl_text decl
  pure (header ++ ";\n")

/-- The text of the declarations sweep of one module. -/
def decls_text (module : pt_module_t) : Except fault String :=
  if module.functions_.length = 0 then .ok ""
  else (blocks decl_line module.functions_).map
    (fun lines => "// decls from '" ++ module.name_ ++ "'\n" ++ lines ++ "\n")

/-- The text of a global declaration, without its terminator. -/
def global_text (global : pt_decl_var_t) : Except fault String := do
  let type ← global.type_.get_string
  let name ← global.name_.get_string
  pure ("static " ++ type ++ " " ++ name)

/-- The line of the globals sweep for one entry of `globals_`. -/
def global_line (node : pt_node_t) : Except fault String := do
  let decl ← as_decl_var node
  let text ← global_text decl
  pure (text ++ ";\n")

/-- The text of the globals sweep of one module. -/
def globals_text (module : pt_module_t) : Except fault String :=
  if module.globals_.length = 0 then .ok ""
  else (blocks global_line module.globals_).map
    (fun lines => "// globals from '" ++ module.name_ ++ "'\n" ++ lines ++ "\n")

/-- The declaration line of one resolved local at nesting depth `depth`. -/
def local_line (depth : Nat) (loc : pt_node_t) : Except fault String := do
  let var ← as_decl_var loc
  let type ← var.type_.get_string
  let name ← var.name_.get_string
  pure (indentation depth ++ type ++ " " ++ name ++ ";\n")

/-- The line of one statement at nesting depth `depth`. -/
def stmt_line (x : env_t) (depth : Nat) (node : pt_node_t) : Except fault String :=
  (lower x node).map (fun text => indentation depth ++ text ++ "\n")

/-- The text of a function body emitted from nesting depth `depth`: the lines of the
locals, then the lines of the statements, one level deeper. -/
def body_text (x : env_t) (depth : Nat) (body : pt_function_body_t) : Except fault String := do
  let locals ← blocks (local_line (depth + 1)) body.locals_
  let stmts ← blocks (stmt_line x (depth + 1)) body.stmt_
  pure (locals ++ stmts)

/-- The text of the bodies sweep for one entry of `functions_`: nothing for a
function without a body, else header, opening brace, body, closing brace, blank
line. -/
def impl_block (x : env_t) (depth : Nat) (node : pt_node_t) : Except fault String := do
  let decl ← as_function_decl node
  match decl.body_ with
  | none => pure ""
  | some body_ => do
    let body ← as_function_body body_
    let header ← decl_text decl
    let text ← body_text x depth body
    pure (header ++ " \x7b\n" ++ text ++ "\x7d\n\n")

/-- The text of the bodies sweep of one module. -/
def impls_text (x : env_t) (depth : Nat) (module : pt_module_t) : Except fault String :=
  blocks (impl_block x depth) module.functions_

/-- The texts of one sweep over the program container: `sweep` applied to the module
view of every node, in container order. -/
def sweep_text (sweep : pt_module_t → Except fault String) (stack : List pt_node_t) :
    Except fault String :=
  blocks (fun node => (as_module node).bind sweep) stack

/-- The text of a whole run from nesting depth `depth`: the header, then the three
sweeps over the program container. -/
def program_text (x : env_t) (depth : Nat) (stack : List pt_node_t) : Except fault String := do
  let decls ← sweep_text decls_text stack
  let globals ← sweep_text globals_text stack
  let impls ← sweep_text (impls_text x depth) stack
  pure (header_text ++ decls ++ globals ++ impls)

/-- The emitting member `e`, run on the backend `b0` with any buffer, appends the
text `t` to the buffer and changes nothing else; it fails when `t` is a failure. -/
def appends (b0 : llb_backend_cpp_t) (e : emit_t) (t : Except fault String) : Prop :=
  ∀ out, e { b0 with out_ := out } = t.map (fun s => { b0 with out_ := out ++ s })

/-- The texts of a list joined with a separator between neighbours: nothing before
the first, nothing after the last. -/
def separated (sep : String) : List String → String
  | [] => ""
  | [a] => a
  | a :: b :: rest => a ++ sep ++ separated sep (b :: rest)

/-- The text `<type> <name>` of one parameter. -/
def param_text (arg_node : pt_node_t) : Except fault String := do
  let var ← as_decl_var arg_node
  let type ← var.type_.get_string
  let name ← var.name_.get_string
  pure (type ++ " " ++ name)

/-- The texts `f` yields for the elements of a list, as a list in the same order. -/
def each {α : Type} (f : α → Except fault String) : List α → Except fault (List String)
  | [] => .ok []
  | a :: rest => do
    let t ← f a
    let ts ← each f rest
    pure (t :: ts)

/-- The forward-declaration line of one entry of `functions_`:
`<storage> <return-type> <name>(<type1> <param1>, <type2> <param2>, ...);`. -/
def signature_line (node : pt_node_t) : Except fault String := do
  let decl ← as_function_decl node
  let ret_type ← decl.ret_type_.get_string
  let name ← decl.name_.get_string
  let params ← each param_text decl.args_
  pure (storage decl ++ ret_type ++ " " ++ name ++ "(" ++ separated ", " params ++ ");\n")

/-- The line `static <type> <name>;` of one entry of `globals_`. -/
def static_line (node : pt_node_t) : Except fault String := do
  let decl ← as_decl_var node
  let type ← decl.type_.get_string
  let name ← decl.name_.get_string
  pure ("static " ++ type ++ " " ++ name ++ ";\n")

/-! ## Sample data, for the concrete instances -/

/-- An identifier token with the given text. -/
def identifier (text : String) : token_t :=
  { type_ := .tok_identifier, value_ := { int_ := 0, float_ := ⟨0⟩, string_ := text },
    line_ := 0, column_ := 0 }

/-- The fail value the sample walker raises. -/
def sample_fail : llb_fail_t := { msg_ := "unsupported", location_ := ⟨3, 7⟩ }

/-- A sample environment: `=` for assignment and `+` for every other operator,
decimal integers, a walker that emits nothing for a variable declaration, the text
`<stmt>` for an expression statement and raises `sample_fail` on everything else,
and a destination that can be opened. -/
def sample_env : env_t where
  get_type_symbol := fun t => if t = .tok_chr_assign then "=" else "+"
  float_text := fun _ => "0.0"
  int_text := fun i => toString i
  walker := fun n =>
    match n with
    | .pt_decl_var_t .. => .ok ""
    | .pt_stmt_t .. => .ok "<stmt>"
    | _ => .error (.thrown sample_fail)
  open_ := fun _ => true

/-- A sample program: one module with one function `f` whose body is a single
`break`, a statement the sample walker raises on. -/
def sample_program : llb_context_t :=
  ⟨⟨[.pt_module_t "m" [.pt_function_decl_t (identifier "f") (identifier "int") []
    (some (.pt_function_body_t [] [.pt_break_t]))] []]⟩⟩

/-- The empty program. -/
def empty_program : llb_context_t := ⟨⟨[]⟩⟩

/-- The sample environment with a destination that cannot be opened. -/
def sample_env_unwritable : env_t := { sample_env with open_ := fun _ => false }

/-- A fail value as a caller passes it in: nothing reported. -/
def no_fail : llb_fail_t := { msg_ := "", location_ := ⟨0, 0⟩ }

/-- A float literal token with the given payload. -/
def float_literal (v : float_t) : token_t :=
  { type_ := .tok_lit_float, value_ := { int_ := 0, float_ := v, string_ := "" },
    line_ := 0, column_ := 0 }

/-- An integer literal token with the given payload. -/
def integer_literal (v : Int) : token_t :=
  { type_ := .tok_lit_integer, value_ := { int_ := v, float_ := ⟨0⟩, string_ := "" },
    line_ := 0, column_ := 0 }

/-- A string literal token with the given payload. -/
def string_literal (text : String) : token_t :=
  { type_ := .tok_lit_string, value_ := { int_ := 0, float_ := ⟨0⟩, string_ := text },
    line_ := 0, column_ := 0 }

/-- The single-precision value nearest to 3.14, as its bit pattern. -/
def float_3_14 : float_t := ⟨0x4048F5C3⟩

/-- The sample environment with a writer that renders `float_3_14` as `3.14`. -/
def literal_env : env_t :=
  { sample_env with float_text := fun v => if v = float_3_14 then "3.14" else "0.0" }

/-- A sample module `m`: the external function `f(int a, float b)`, the function `g()`
with an empty body, and the globals `x` and `y`. -/
def sample_module : pt_module_t where
  name_ := "m"
  functions_ :=
    [.pt_function_decl_t (identifier "f") (identifier "int")
        [.pt_decl_var_t (identifier "a") (identifier "int") none,
         .pt_decl_var_t (identifier "b") (identifier "float") none] none,
     .pt_function_decl_t (identifier "g") (identifier "int") []
        (some (.pt_function_body_t [] []))]
  globals_ :=
    [.pt_decl_var_t (identifier "x") (identifier "int") none,
     .pt_decl_var_t (identifier "y") (identifier "float") none]

/-- A module without functions and without globals. -/
def bare_module : pt_module_t := { name_ := "n", functions_ := [], globals_ := [] }

end llb_backend_cpp

/-! # Properties -/

namespace llb_frontend

/-! ## Runtime type tags -/

theorem card_pt_kind : Fintype.card pt_kind = 15 := by decide

theorem rtti_t.wf.id_le {s : rtti_t} (h : s.wf) : s.id ≤ 15 := by
  rw [h.count, ← card_pt_kind]
  exact Finset.card_le_univ _

theorem wf_start : rtti_t.start.wf := by
  refine ⟨?_, ?_, ?_⟩
  · simp [rtti_t.start]
  · intro k t h; simp [rtti_t.start] at h
  · intro k k' t t' h; simp [rtti_t.start] at h

/-- A call of `get_type_static` keeps the statics consistent, leaves the struct's tag
set to what it returns, and changes no tag that was already set. -/
theorem get_type_static_spec (k : pt_kind) (s : rtti_t) (h : s.wf) :
    (get_type_static k s).2.wf ∧
    (get_type_static k s).2.type k = some (get_type_static k s).1 ∧
    (∀ k' t, s.type k' = some t → (get_type_static k s).2.type k' = some t) := by
  unfold get_type_static
  cases hk : s.type k with
  | some t => exact ⟨h, hk, fun _ _ h' => h'⟩
  | none =>
    have hle := h.id_le
    have hmod : (s.id + 1) % 2 ^ 32 = s.id + 1 := Nat.mod_eq_of_lt (by omega)
    simp only [type_t.new, new_id, hmod]
    refine ⟨⟨?_, ?_, ?_⟩, ?_, ?_⟩
    · have hset : (Finset.univ.filter (fun k' =>
          (Function.update s.type k (some ⟨s.id, k.rtti_name⟩) k').isSome = true))
          = insert k (Finset.univ.filter (fun k' => (s.type k').isSome = true)) := by
        ext k'
        by_cases hkk : k' = k
        · subst hkk; simp
        · simp [Function.update_noteq hkk, hkk]
      show s.id + 1 = _
      rw [hset, Finset.card_insert_of_not_mem (by simp [hk]), ← h.count]
    · intro k' t ht
      by_cases hkk : k' = k
      · subst hkk
        simp at ht
        subst ht
        simp
      · simp only [Function.update_noteq hkk] at ht
        have := h.below k' t ht
        show t.id_ < s.id + 1
        omega
    · intro k1 k2 t1 t2 h1 h2 hid
      by_cases e1 : k1 = k <;> by_cases e2 : k2 = k
      · rw [e1, e2]
      · subst e1
        simp only [Function.update_noteq e2] at h2
        simp at h1
        subst h1
        have := h.below k2 t2 h2
        simp at hid
        omega
      · subst e2
        simp only [Function.update_noteq e1] at h1
        simp at h2
        subst h2
        have := h.below k1 t1 h1
        simp at hid
        omega
      · simp only [Function.update_noteq e1] at h1
        simp only [Function.update_noteq e2] at h2
        exact h.inj k1 k2 t1 t2 h1 h2 hid
    · simp
    · intro k' t ht
      have hkk : k' ≠ k := by
        intro e; subst e; rw [hk] at ht; cases ht
      show Function.update s.type k _ k' = some t
      rw [Function.update_noteq hkk]; exact ht

theorem wf_after (reqs : List pt_kind) : (rtti_t.after reqs).wf := by
  unfold rtti_t.after
  suffices h : ∀ s : rtti_t, s.wf → (reqs.foldl (fun s k => (get_type_static k s).2) s).wf from
    h _ wf_start
  induction reqs with
  | nil => intro s hs; exact hs
  | cons k rest ih =>
    intro s hs
    exact ih _ (get_type_static_spec k s hs).1

theorem is_a_of_wf (W : pt_kind) (n : pt_node_t) (s : rtti_t) (h : s.wf) :
    (n.is_a W s).1 = decide (W = n.kind) ∧ (n.is_a W s).2.wf := by
  unfold pt_node_t.is_a pt_node_t.get_type
  obtain ⟨hwf1, hset1, _⟩ := get_type_static_spec n.kind s h
  obtain ⟨hwf2, hset2, hkeep2⟩ := get_type_static_spec W (get_type_static n.kind s).2 hwf1
  refine ⟨?_, hwf2⟩
  have hV := hkeep2 _ _ hset1
  by_cases hWV : W = n.kind
  · subst hWV
    rw [hset2] at hV
    simp only [type_t.eq, decide_True]
    simp only [Option.some.injEq] at hV
    rw [hV]; simp
  · simp only [type_t.eq, hWV, decide_False]
    simp only [beq_eq_false_iff_ne, ne_eq]
    intro hid
    exact hWV (hwf2.inj _ _ _ _ hV hset2 hid).symm

/-- C2: for every struct `W`, every node `n` and every state of the tag statics, the
checked downcast `upcast<W>(n)` returns `n` itself (a non-null view) exactly when
`is_a<W>(n)` is true and null exactly when it is false; it is a total function (it
always returns), and it touches the statics only the way `is_a` does. -/
theorem upcast_iff_is_a (W : pt_kind) (n : pt_node_t) (s : rtti_t) :
    ((n.upcast W s).1 = some n ↔ (n.is_a W s).1 = true) ∧
    ((n.upcast W s).1 = none ↔ (n.is_a W s).1 = false) ∧
    (n.upcast W s).2 = (n.is_a W s).2 := by
  unfold pt_node_t.upcast
  cases h : (n.is_a W s).1 <;> simp [h]

/-- C3: whatever the order `reqs` in which tags were first requested from the id
counter, for every struct `W` and every node `n`, `is_a<W>(n)` is true exactly when
`W` is the struct `n` was constructed as; and the tags of two structs `V` and `W`,
requested in either order, are equal exactly when `V` and `W` are the same struct. -/
theorem is_a_iff_constructed_as (reqs : List pt_kind) (W : pt_kind) (n : pt_node_t) :
    ((n.is_a W (rtti_t.after reqs)).1 = true ↔ W = n.kind) ∧
    ∀ V : pt_kind,
      ((get_type_static V (rtti_t.after reqs)).1.id_ =
        (get_type_static W (get_type_static V (rtti_t.after reqs)).2).1.id_ ↔ V = W) := by
  constructor
  · rw [(is_a_of_wf W n _ (wf_after reqs)).1]
    simp
  · intro V
    obtain ⟨hwf1, hset1, _⟩ := get_type_static_spec V _ (wf_after reqs)
    obtain ⟨hwf2, hset2, hkeep2⟩ := get_type_static_spec W _ hwf1
    have hV := hkeep2 _ _ hset1
    constructor
    · intro hid
      exact hwf2.inj _ _ _ _ hV hset2 hid
    · intro e
      subst e
      rw [hset2] at hV
      simp only [Option.some.injEq] at hV
      rw [hV]

/-- C4: for every node `n` and every visitor, `n.accept(visitor)` is one application
of the `visit` overload of the struct `n` was constructed as, and of nothing else: the
recording visitor's log grows by exactly the one entry `n.kind`; every one of the
fifteen structs has its own overload (the recording visitor tells them apart).  The
call is the node's virtual `accept`, the same function through whatever static type
the node is held. -/
theorem accept_dispatch {σ : Type} (visitor : pt_node_visitor_t σ) (n : pt_node_t) (s : σ)
    (log : List pt_kind) :
    n.accept visitor s = visitor.overload n.kind n s ∧
    n.accept recorder log = log ++ [n.kind] ∧
    ∀ k : pt_kind, recorder.overload k n log = log ++ [k] := by
  refine ⟨?_, ?_, ?_⟩
  · cases n <;> rfl
  · cases n <;> rfl
  · intro k; cases k <;> rfl

end llb_frontend

namespace llb_backend_cpp
open llb_frontend (token_type_t token_t float_t llb_fail_t location_t fault)

/-! ## The text writer -/

theorem format_0_sp_1 (a b : String) : format "%0 %1" [a, b] = a ++ " " ++ b := by
  apply String.ext
  simp [format, format_chars, String.data_append]

theorem format_0_sp (a : String) : format "%0 " [a] = a ++ " " := by
  apply String.ext
  simp [format, format_chars, String.data_append]

theorem format_0_paren (a : String) : format "%0(" [a] = a ++ "(" := by
  apply String.ext
  simp [format, format_chars, String.data_append]

theorem format_decls_from (a : String) :
    format "// decls from '%0'" [a] = "// decls from '" ++ a ++ "'" := by
  apply String.ext
  simp [format, format_chars, String.data_append]

theorem format_globals_from (a : String) :
    format "// globals from '%0'" [a] = "// globals from '" ++ a ++ "'" := by
  apply String.ext
  simp [format, format_chars, String.data_append]

theorem format_static_0_1 (a b : String) :
    format "static %0 %1" [a, b] = "static " ++ a ++ " " ++ b := by
  apply String.ext
  simp [format, format_chars, String.data_append]

theorem format_0_sp_1_semi (a b : String) : format "%0 %1;" [a, b] = a ++ " " ++ b ++ ";" := by
  apply String.ext
  simp [format, format_chars, String.data_append]

theorem format_0_f (a : String) : format "%0f" [a] = a ++ "f" := by
  apply String.ext
  simp [format, format_chars, String.data_append]

theorem format_0 (a : String) : format "%0" [a] = a := by
  apply String.ext
  simp [format, format_chars, String.data_append]

/-! ## Emitting members append to the buffer -/

theorem text_of_eq {b0 : llb_backend_cpp_t} {e : emit_t} {t : Except fault String}
    (h : appends b0 e t) : text_of e b0 = t := by
  unfold text_of
  rw [h ""]
  cases t <;> simp [Except.map]

theorem appends_apply {b0 : llb_backend_cpp_t} {e : emit_t} {t : Except fault String}
    (h : appends b0 e t) (b : llb_backend_cpp_t) (hp : b.path_ = b0.path_)
    (hc : b.cxt_ = b0.cxt_) (hi : b.indent_ = b0.indent_) :
    e b = t.map (fun s => { b with out_ := b.out_ ++ s }) := by
  have e1 : b = { b0 with out_ := b.out_ } := by
    cases b; cases b0; simp_all
  have := h b.out_
  rw [← e1] at this
  rw [this]
  congr 1
  funext s
  cases b; cases b0; simp_all

theorem appends_self {b : llb_backend_cpp_t} {e : emit_t} {t : Except fault String}
    (h : appends b e t) : e b = t.map (fun s => { b with out_ := b.out_ ++ s }) :=
  appends_apply h b rfl rfl rfl

theorem appends_for_each {α : Type} (b0 : llb_backend_cpp_t) (f : α → emit_t)
    (g : α → Except fault String) (h : ∀ a, appends b0 (f a) (g a)) (l : List α) :
    appends b0 (for_each f l) (blocks g l) := by
  induction l with
  | nil => intro out; simp [for_each, blocks, Except.map]
  | cons a rest ih =>
    intro out
    simp only [for_each, blocks, bind, Except.bind]
    rw [h a out]
    cases g a with
    | error e => simp [Except.map]
    | ok t =>
      simp only [Except.map]
      rw [ih (out ++ t)]
      cases blocks g rest with
      | error e => simp [Except.map]
      | ok ts => simp [Except.map, pure, Except.pure, String.append_assoc]

theorem emit_decl_args_appends (b0 : llb_backend_cpp_t) (l : List pt_node_t) (first : Bool) :
    appends b0 (emit_decl_args first l) (args_text first l) := by
  induction l generalizing first with
  | nil => intro out; simp [emit_decl_args, args_text, Except.map]
  | cons a rest ih =>
    intro out
    simp only [emit_decl_args, args_text, as_decl_var]
    cases upcast_pt_decl_var_t a with
    | none => simp [Except.map, bind, Except.bind]
    | some var =>
      cases ht : var.type_.get_string with
      | error e => simp [Except.map, bind, Except.bind, ht]
      | ok ty =>
        cases hn : var.name_.get_string with
        | error e => simp [Except.map, bind, Except.bind, ht, hn]
        | ok nm =>
          simp only [bind, Except.bind, ht, hn]
          cases first
          · simp only [llb_backend_cpp_t.out, writer.print, writer.print_fmt, Bool.not_false,
              if_true]
            rw [ih false]
            cases args_text false rest with
            | error e => simp [Except.map]
            | ok more =>
              simp only [Except.map, pure, Except.pure, Bool.false_eq_true, if_false]
              simp only [format_0_sp_1, String.append_assoc]
          · simp only [llb_backend_cpp_t.out, writer.print, writer.print_fmt, Bool.not_true,
              Bool.false_eq_true, if_false]
            rw [ih false]
            cases args_text false rest with
            | error e => simp [Except.map]
            | ok more =>
              simp only [Except.map, pure, Except.pure, if_true]
              simp only [format_0_sp_1, String.append_assoc, String.empty_append]

/-- The member `emit_decl` appends the declaration header. -/
theorem emit_decl_appends (b0 : llb_backend_cpp_t) (func : pt_function_decl_t) :
    appends b0 (emit_decl func) (decl_text func) := by
  unfold decl_text
  intro out
  simp only [emit_decl, bind, Except.bind]
  cases hr : func.ret_type_.get_string with
  | error e => simp [Except.map]
  | ok r =>
    cases hn : func.name_.get_string with
    | error e => simp [Except.map]
    | ok n =>
      simp only []
      have key : ∀ st : String, emit_decl_args true func.args_
          { path_ := b0.path_, out_ := out ++ st ++ format "%0 " [r] ++ format "%0(" [n],
            cxt_ := b0.cxt_, indent_ := b0.indent_ }
          = (args_text true func.args_).map (fun s =>
            { b0 with out_ := out ++ st ++ format "%0 " [r] ++ format "%0(" [n] ++ s }) :=
        fun st => emit_decl_args_appends b0 func.args_ true _
      cases hb : func.body_ with
      | none =>
        simp only [Option.isNone_none, if_true, llb_backend_cpp_t.out, writer.print,
          writer.print_fmt, storage, hb]
        rw [key "extern "]
        cases args_text true func.args_ with
        | error e => simp [Except.map]
        | ok a =>
          simp [Except.map, pure, Except.pure, format_0_sp, format_0_paren,
            String.append_assoc]
      | some body =>
        simp only [Option.isNone_some, Bool.false_eq_true, if_false, llb_backend_cpp_t.out,
          writer.print, writer.print_fmt, storage, hb]
        rw [key "static "]
        cases args_text true func.args_ with
        | error e => simp [Except.map]
        | ok a =>
          simp [Except.map, pure, Except.pure, format_0_sp, format_0_paren,
            String.append_assoc]

end llb_backend_cpp

namespace llb_backend_cpp
open llb_frontend (token_type_t token_t float_t llb_fail_t location_t fault)

/-! ## The visit handlers append to the buffer -/

theorem appends_walker (x : env_t) (n : pt_node_t)
    (h : ∀ b, accept x n b = (x.walker n).bind (fun walked => .ok (b.out (writer.print walked)))) :
    ∀ b0, appends b0 (accept x n) (x.walker n) := by
  intro b0 out
  rw [h]
  cases x.walker n <;> simp [Except.bind, Except.map, llb_backend_cpp_t.out, writer.print]

theorem accept_stmt_appends (x : env_t) (expr_ : pt_node_t) (b0 : llb_backend_cpp_t) :
    appends b0 (accept x (.pt_stmt_t expr_))
      ((x.walker (.pt_stmt_t expr_)).map (fun walked => walked ++ ";")) := by
  intro out
  simp only [accept, bind, Except.bind]
  cases x.walker (.pt_stmt_t expr_) with
  | error e => simp [Except.map]
  | ok w =>
    simp only [Except.map, pure, Except.pure, llb_backend_cpp_t.out, writer.print,
      writer.put_char, String.append_assoc]
    rfl

theorem accept_identifier_appends (x : env_t) (name_ : token_t) (b0 : llb_backend_cpp_t) :
    appends b0 (accept x (.pt_identifier_t name_)) name_.get_string := by
  intro out
  simp only [accept, bind, Except.bind]
  cases name_.get_string with
  | error e => simp [Except.map]
  | ok w => simp [Except.map, pure, Except.pure, llb_backend_cpp_t.out, writer.print]

theorem accept_literal_appends (x : env_t) (value_ : token_t) (b0 : llb_backend_cpp_t) :
    appends b0 (accept x (.pt_literal_t value_))
      (match value_.type_ with
      | .tok_lit_float => value_.get_float.map (fun v => x.float_text v ++ "f")
      | .tok_lit_integer => value_.get_int.map (fun v => x.int_text v)
      | .tok_lit_string => value_.get_string
      | _ => .error .assertion) := by
  intro out
  simp only [accept]
  cases ht : value_.type_ <;> simp only [Except.map]
  · cases value_.get_int <;>
      simp [Except.map, bind, Except.bind, pure, Except.pure, llb_backend_cpp_t.out,
        writer.print_fmt, format_0]
  · cases value_.get_float <;>
      simp [Except.map, bind, Except.bind, pure, Except.pure, llb_backend_cpp_t.out,
        writer.print_fmt, format_0_f]
  · cases value_.get_string <;>
      simp [Except.map, bind, Except.bind, pure, Except.pure, llb_backend_cpp_t.out,
        writer.print_fmt, format_0]

theorem accept_return_none_appends (x : env_t) (b0 : llb_backend_cpp_t) :
    appends b0 (accept x (.pt_return_t none)) (.ok "return ;") := by
  intro out
  simp only [accept, bind, Except.bind, pure, Except.pure, Except.map,
    llb_backend_cpp_t.out, writer.print, String.append_assoc]
  rfl

theorem accept_return_some_appends (x : env_t) (e : pt_node_t) (t : Except fault String)
    (ht : ∀ b0, appends b0 (accept x e) t) (b0 : llb_backend_cpp_t) :
    appends b0 (accept x (.pt_return_t (some e))) (t.map (fun s => "return " ++ s ++ ";")) := by
  intro out
  simp only [accept, bind, Except.bind, llb_backend_cpp_t.out, writer.print]
  rw [ht b0]
  cases t with
  | error e => simp [Except.map]
  | ok s => simp [Except.map, pure, Except.pure, String.append_assoc]

theorem accept_op_bin_appends (x : env_t) (operator_ : token_t) (lhs_ rhs_ : pt_node_t)
    (tl tr : Except fault String) (hl : ∀ b0, appends b0 (accept x lhs_) tl)
    (hr : ∀ b0, appends b0 (accept x rhs_) tr) (b0 : llb_backend_cpp_t) :
    appends b0 (accept x (.pt_op_bin_t operator_ lhs_ rhs_)) (do
      let l ← tl
      let r ← tr
      pure (if operator_.type_ = .tok_chr_assign
        then l ++ x.get_type_symbol operator_.type_ ++ r
        else "(" ++ l ++ x.get_type_symbol operator_.type_ ++ r ++ ")")) := by
  intro out
  simp only [accept, bind, Except.bind]
  by_cases hop : operator_.type_ = .tok_chr_assign
  · simp only [hop, if_true, Bool.false_eq_true, if_false]
    rw [hl b0]
    cases tl with
    | error e => simp [Except.map]
    | ok l =>
      simp only [Except.map, llb_backend_cpp_t.out, writer.print]
      rw [hr b0]
      cases tr with
      | error e => simp [Except.map]
      | ok r => simp [Except.map, pure, Except.pure, String.append_assoc]
  · simp only [hop, if_false, if_true, llb_backend_cpp_t.out, writer.put_char]
    rw [hl b0]
    cases tl with
    | error e => simp [Except.map]
    | ok l =>
      simp only [Except.map, llb_backend_cpp_t.out, writer.print]
      rw [hr b0]
      cases tr with
      | error e => simp [Except.map]
      | ok r =>
        simp only [Except.map, pure, Except.pure, String.append_assoc]
        rfl

/-- Every `accept` appends a text that depends on the node alone. -/
theorem accept_framed (x : env_t) :
    ∀ n : pt_node_t, ∃ t, ∀ b0, appends b0 (accept x n) t
  | .pt_module_t name_ functions_ globals_ =>
    ⟨_, appends_walker x _ (fun b => by simp [accept, bind, pure, Except.pure])⟩
  | .pt_function_decl_t name_ ret_type_ args_ body_ =>
    ⟨_, appends_walker x _ (fun b => by simp [accept, bind, pure, Except.pure])⟩
  | .pt_function_body_t locals_ stmt_ =>
    ⟨_, appends_walker x _ (fun b => by simp [accept, bind, pure, Except.pure])⟩
  | .pt_decl_var_t name_ type_ expr_ =>
    ⟨_, appends_walker x _ (fun b => by simp [accept, bind, pure, Except.pure])⟩
  | .pt_op_ury_t operator_ child_ =>
    ⟨_, appends_walker x _ (fun b => by simp [accept, bind, pure, Except.pure])⟩
  | .pt_if_t expr_ stmt_1_ stmt_0_ =>
    ⟨_, appends_walker x _ (fun b => by simp [accept, bind, pure, Except.pure])⟩
  | .pt_while_t expr_ stmt_ =>
    ⟨_, appends_walker x _ (fun b => by simp [accept, bind, pure, Except.pure])⟩
  | .pt_break_t =>
    ⟨_, appends_walker x _ (fun b => by simp [accept, bind, pure, Except.pure])⟩
  | .pt_continue_t =>
    ⟨_, appends_walker x _ (fun b => by simp [accept, bind, pure, Except.pure])⟩
  | .pt_assign_t name_ expr_ =>
    ⟨_, appends_walker x _ (fun b => by simp [accept, bind, pure, Except.pure])⟩
  | .pt_call_t name_ arg_ =>
    ⟨_, appends_walker x _ (fun b => by simp [accept, bind, pure, Except.pure])⟩
  | .pt_stmt_t expr_ => ⟨_, accept_stmt_appends x expr_⟩
  | .pt_identifier_t name_ => ⟨_, accept_identifier_appends x name_⟩
  | .pt_literal_t value_ => ⟨_, accept_literal_appends x value_⟩
  | .pt_return_t none => ⟨_, accept_return_none_appends x⟩
  | .pt_return_t (some e) =>
    have ⟨t, ht⟩ := accept_framed x e
    ⟨_, accept_return_some_appends x e t ht⟩
  | .pt_op_bin_t operator_ lhs_ rhs_ =>
    have ⟨tl, hl⟩ := accept_framed x lhs_
    have ⟨tr, hr⟩ := accept_framed x rhs_
    ⟨_, accept_op_bin_appends x operator_ lhs_ rhs_ tl tr hl hr⟩

end llb_backend_cpp

namespace llb_backend_cpp
open llb_frontend (token_type_t token_t float_t llb_fail_t location_t fault)

theorem accept_appends (x : env_t) (n : pt_node_t) (b0 : llb_backend_cpp_t) :
    appends b0 (accept x n) (lower x n) := by
  obtain ⟨t, ht⟩ := accept_framed x n
  have h : lower x n = t := text_of_eq (ht _)
  rw [h]
  exact ht b0

theorem emit_decls_step_appends (b0 : llb_backend_cpp_t) (node : pt_node_t) :
    appends b0 (emit_decls_step node) (decl_line node) := by
  intro out
  unfold emit_decls_step decl_line as_function_decl
  cases upcast_pt_function_decl_t node with
  | none => simp [Except.map, bind, Except.bind]
  | some decl =>
    simp only [bind, Except.bind]
    rw [emit_decl_appends b0 decl out]
    cases decl_text decl with
    | error e => simp [Except.map]
    | ok s =>
      simp only [Except.map, pure, Except.pure, llb_backend_cpp_t.out, writer.print,
        writer.new_line, String.append_assoc]
      rfl

theorem emit_decls_appends (b0 : llb_backend_cpp_t) (module : pt_module_t) :
    appends b0 (emit_decls module) (decls_text module) := by
  intro out
  unfold emit_decls decls_text
  by_cases h0 : module.functions_.length = 0
  · simp [h0, Except.map]
  · simp only [h0, if_false, bind, Except.bind, llb_backend_cpp_t.out, writer.println_fmt,
      writer.new_line, writer.print_fmt]
    rw [appends_for_each b0 _ _ (emit_decls_step_appends b0) module.functions_]
    cases blocks decl_line module.functions_ with
    | error e => simp [Except.map]
    | ok s =>
      simp only [Except.map, pure, Except.pure, format_decls_from, String.append_assoc]
      rfl

theorem emit_global_appends (b0 : llb_backend_cpp_t) (global : pt_decl_var_t) :
    appends b0 (emit_global global) (global_text global) := by
  intro out
  unfold emit_global global_text
  cases global.type_.get_string with
  | error e => simp [Except.map, bind, Except.bind]
  | ok ty =>
    cases global.name_.get_string with
    | error e => simp [Except.map, bind, Except.bind]
    | ok nm =>
      simp [Except.map, bind, Except.bind, pure, Except.pure, llb_backend_cpp_t.out,
        writer.print_fmt, format_static_0_1]

theorem emit_globals_step_appends (b0 : llb_backend_cpp_t) (node : pt_node_t) :
    appends b0 (emit_globals_step node) (global_line node) := by
  intro out
  unfold emit_globals_step global_line as_decl_var
  cases upcast_pt_decl_var_t node with
  | none => simp [Except.map, bind, Except.bind]
  | some decl =>
    simp only [bind, Except.bind]
    rw [emit_global_appends b0 decl out]
    cases global_text decl with
    | error e => simp [Except.map]
    | ok s =>
      simp only [Except.map, pure, Except.pure, llb_backend_cpp_t.out, writer.print,
        writer.new_line, String.append_assoc]
      rfl

theorem emit_globals_appends (b0 : llb_backend_cpp_t) (module : pt_module_t) :
    appends b0 (emit_globals module) (globals_text module) := by
  intro out
  unfold emit_globals globals_text
  by_cases h0 : module.globals_.length = 0
  · simp [h0, Except.map]
  · simp only [h0, if_false, bind, Except.bind, llb_backend_cpp_t.out, writer.println_fmt,
      writer.new_line, writer.print_fmt]
    rw [appends_for_each b0 _ _ (emit_globals_step_appends b0) module.globals_]
    cases blocks global_line module.globals_ with
    | error e => simp [Except.map]
    | ok s =>
      simp only [Except.map, pure, Except.pure, format_globals_from, String.append_assoc]
      rfl

theorem emit_body_local_appends (b0 : llb_backend_cpp_t) (loc : pt_node_t) :
    appends b0 (emit_body_local loc) (local_line b0.indent_ loc) := by
  intro out
  unfold emit_body_local local_line as_decl_var
  cases upcast_pt_decl_var_t loc with
  | none => simp [Except.map, bind, Except.bind]
  | some var =>
    simp only [bind, Except.bind]
    cases var.type_.get_string with
    | error e => simp [Except.map]
    | ok ty =>
      cases var.name_.get_string with
      | error e => simp [Except.map]
      | ok nm =>
        simp only [Except.map, pure, Except.pure, llb_backend_cpp_t.out,
          writer.print_fmt, writer.fill, writer.new_line, format_0_sp_1_semi, indentation,
          String.append_assoc]
        rfl

theorem emit_body_stmt_appends (x : env_t) (b0 : llb_backend_cpp_t) (node : pt_node_t) :
    appends b0 (emit_body_stmt x node) (stmt_line x b0.indent_ node) := by
  intro out
  unfold emit_body_stmt stmt_line
  simp only [bind, Except.bind, llb_backend_cpp_t.out, writer.fill]
  rw [accept_appends x node b0]
  cases lower x node with
  | error e => simp [Except.map]
  | ok s =>
    simp [Except.map, pure, Except.pure, writer.new_line, indentation, String.append_assoc]

theorem emit_body_appends (x : env_t) (b0 : llb_backend_cpp_t) (body : pt_function_body_t) :
    appends b0 (emit_body x body) (body_text x b0.indent_ body) := by
  intro out
  unfold emit_body body_text
  simp only [bind, Except.bind]
  have h1 := appends_for_each { b0 with indent_ := b0.indent_ + 1 } _ _
    (emit_body_local_appends { b0 with indent_ := b0.indent_ + 1 }) body.locals_
  have h2 := appends_for_each { b0 with indent_ := b0.indent_ + 1 } _ _
    (emit_body_stmt_appends x { b0 with indent_ := b0.indent_ + 1 }) body.stmt_
  rw [h1 out]
  cases blocks (local_line (b0.indent_ + 1)) body.locals_ with
  | error e => simp [Except.map]
  | ok ls =>
    simp only [Except.map]
    rw [h2 (out ++ ls)]
    cases blocks (stmt_line x (b0.indent_ + 1)) body.stmt_ with
    | error e => simp [Except.map]
    | ok ss => simp [Except.map, pure, Except.pure, String.append_assoc]

theorem emit_locals_eq (body : pt_function_body_t) (b : llb_backend_cpp_t) :
    emit_locals body b = .ok b := by
  unfold emit_locals
  induction body.locals_ with
  | nil => rfl
  | cons a rest ih => simp [for_each, bind, Except.bind, ih]

theorem emit_impls_step_appends (x : env_t) (b0 : llb_backend_cpp_t) (node : pt_node_t) :
    appends b0 (emit_impls_step x node) (impl_block x b0.indent_ node) := by
  intro out
  unfold emit_impls_step impl_block as_function_decl
  cases upcast_pt_function_decl_t node with
  | none => simp [Except.map, bind, Except.bind]
  | some decl =>
    simp only [bind, Except.bind]
    cases decl.body_ with
    | none => simp [Except.map, pure, Except.pure]
    | some body_ =>
      simp only [as_function_body]
      cases upcast_pt_function_body_t body_ with
      | none => simp [Except.map]
      | some body =>
        simp only []
        rw [emit_decl_appends b0 decl out]
        cases decl_text decl with
        | error e => simp [Except.map]
        | ok h =>
          simp only [Except.map, emit_locals_eq, llb_backend_cpp_t.out, writer.print,
            writer.new_line]
          rw [emit_body_appends x b0 body]
          cases body_text x b0.indent_ body with
          | error e => simp [Except.map]
          | ok t =>
            simp only [Except.map, pure, Except.pure, String.append_assoc]
            rfl

theorem emit_impls_appends (x : env_t) (b0 : llb_backend_cpp_t) (module : pt_module_t) :
    appends b0 (emit_impls x module) (impls_text x b0.indent_ module) := by
  intro out
  unfold emit_impls impls_text
  by_cases h0 : module.functions_.length = 0
  · have : module.functions_ = [] := List.length_eq_zero.mp h0
    simp [this, blocks, Except.map]
  · simp only [h0, if_false]
    exact appends_for_each b0 _ _ (emit_impls_step_appends x b0) module.functions_ out

theorem for_each_module_appends (b0 : llb_backend_cpp_t) (cxt : llb_context_t)
    (hc : b0.cxt_ = some cxt) (func : pt_module_t → emit_t)
    (text : pt_module_t → Except fault String) (h : ∀ module, appends b0 (func module) (text module)) :
    appends b0 (for_each_module func) (sweep_text text cxt.pt_.stack_) := by
  intro out
  unfold for_each_module sweep_text
  split
  · rename_i h0
    simp [hc] at h0
  rename_i c h0
  have hcc : c = cxt := by simpa [hc] using h0.symm
  subst hcc
  refine appends_for_each b0 _ _ ?_ c.pt_.stack_ out
  intro node out
  unfold for_each_module_step as_module
  cases upcast_pt_module_t node with
  | none => simp [Except.map, Except.bind]
  | some module => simpa [Except.bind] using h module out

/-- The text of the whole program: header, then the three sweeps. -/
theorem run_try_appends (x : env_t) (b0 : llb_backend_cpp_t) (cxt : llb_context_t)
    (hc : b0.cxt_ = some cxt) :
    appends b0 (run_try x) (program_text x b0.indent_ cxt.pt_.stack_) := by
  intro out
  unfold run_try program_text
  simp only [bind, Except.bind, emit_header, llb_backend_cpp_t.out, writer.println,
    writer.print, writer.new_line]
  rw [for_each_module_appends b0 cxt hc _ _ (emit_decls_appends b0)]
  cases sweep_text decls_text cxt.pt_.stack_ with
  | error e => simp [Except.map]
  | ok ds =>
    simp only [Except.map]
    rw [for_each_module_appends b0 cxt hc _ _ (emit_globals_appends b0)]
    cases sweep_text globals_text cxt.pt_.stack_ with
    | error e => simp [Except.map]
    | ok gs =>
      simp only [Except.map]
      rw [for_each_module_appends b0 cxt hc _ _ (emit_impls_appends x b0)]
      cases sweep_text (impls_text x b0.indent_) cxt.pt_.stack_ with
      | error e => simp [Except.map]
      | ok bs =>
        simp only [Except.map, pure, Except.pure, header_text, String.append_assoc]
        rfl

end llb_backend_cpp

namespace llb_backend_cpp
open llb_frontend (token_type_t token_t float_t llb_fail_t location_t fault)

/-! ## The member `run` -/

theorem sweep_text_congr (f g : pt_module_t → Except fault String) (h : ∀ m, f m = g m)
    (stack : List pt_node_t) : sweep_text f stack = sweep_text g stack := by
  have : f = g := funext h
  rw [this]

/-- What `run` does, in terms of the text of the program. -/
theorem run_eq (x : env_t) (modules : llb_context_t) (fail : llb_fail_t)
    (b : llb_backend_cpp_t) :
    run x modules fail b =
      match program_text x b.indent_ modules.pt_.stack_ with
      | .error (.thrown thrown) => .returned false thrown none none
      | .error .assertion => .aborted
      | .ok t =>
        if !x.open_ b.path_ then
          .returned false fail none (some { b with cxt_ := some modules, out_ := b.out_ ++ t })
        else
          .returned true fail (some (b.out_ ++ t))
            (some { b with cxt_ := some modules, out_ := b.out_ ++ t }) := by
  unfold run
  have h := appends_self (run_try_appends x { b with cxt_ := some modules } modules rfl)
  simp only [] at h
  simp only []
  rw [h]
  cases program_text x b.indent_ modules.pt_.stack_ with
  | error e => cases e <;> simp [Except.map]
  | ok t => simp [Except.map, writer.to_string]

/-- C1: for every program (any sequence of nodes in the container) and every backend,
the buffer that the emission of `run` leaves is the buffer it started with (empty for
a constructed backend), then the header, then the forward-declaration blocks of all
modules in container order, then the global-declaration blocks of all modules in
container order, then the function-body blocks of all modules in container order; a
block is the text the sweep's member emits for that module on its own.  The emission
fails exactly when one of these blocks fails, with the first failure in that order.
That buffer is the text `run` hands to the destination when it can be opened. -/
theorem run_text_order (x : env_t) (modules : llb_context_t) (fail : llb_fail_t)
    (b : llb_backend_cpp_t) :
    let text : Except fault String := do
      let decls ← sweep_text (fun m => text_of (emit_decls m) b) modules.pt_.stack_
      let globals ← sweep_text (fun m => text_of (emit_globals m) b) modules.pt_.stack_
      let impls ← sweep_text (fun m => text_of (emit_impls x m) b) modules.pt_.stack_
      pure (b.out_ ++ (header_text ++ decls ++ globals ++ impls))
    run_try x { b with cxt_ := some modules }
      = text.map (fun t => { b with cxt_ := some modules, out_ := t }) ∧
    (run x modules fail b).written =
      match text with
      | .ok t => if x.open_ b.path_ then some t else none
      | .error _ => none := by
  intro text
  have htext : text = (program_text x b.indent_ modules.pt_.stack_).map (fun t => b.out_ ++ t) := by
    simp only [text]
    rw [sweep_text_congr _ _ (fun m => text_of_eq (emit_decls_appends b m)),
      sweep_text_congr _ _ (fun m => text_of_eq (emit_globals_appends b m)),
      sweep_text_congr _ _ (fun m => text_of_eq (emit_impls_appends x b m))]
    unfold program_text
    cases sweep_text decls_text modules.pt_.stack_ with
    | error e => simp [Except.map, bind, Except.bind]
    | ok ds =>
      cases sweep_text globals_text modules.pt_.stack_ with
      | error e => simp [Except.map, bind, Except.bind]
      | ok gs =>
        cases sweep_text (impls_text x b.indent_) modules.pt_.stack_ with
        | error e => simp [Except.map, bind, Except.bind]
        | ok bs => simp [Except.map, bind, Except.bind, pure, Except.pure]
  constructor
  · have h := appends_self (run_try_appends x { b with cxt_ := some modules } modules rfl)
    simp only [] at h
    rw [h, htext]
    cases program_text x b.indent_ modules.pt_.stack_ <;> simp [Except.map]
  · rw [run_eq, htext]
    cases program_text x b.indent_ modules.pt_.stack_ with
    | error e => cases e <;> simp [Except.map, run_outcome.written]
    | ok t => by_cases ho : x.open_ b.path_ <;> simp [Except.map, run_outcome.written, ho]

/-- C5: if one of the three sweeps of `run` raises the fail value `f` (the sweeps
before it having returned), then `run` returns, it returns `false`, its fail output is
`f`, and nothing is handed to the destination. -/
theorem run_catches_fail (x : env_t) (modules : llb_context_t) (fail f : llb_fail_t)
    (b : llb_backend_cpp_t)
    (h : for_each_module emit_decls (emit_header { b with cxt_ := some modules })
          = .error (.thrown f) ∨
        (∃ b2, for_each_module emit_decls (emit_header { b with cxt_ := some modules }) = .ok b2 ∧
          for_each_module emit_globals b2 = .error (.thrown f)) ∨
        (∃ b2 b3, for_each_module emit_decls (emit_header { b with cxt_ := some modules }) = .ok b2 ∧
          for_each_module emit_globals b2 = .ok b3 ∧
          for_each_module (emit_impls x) b3 = .error (.thrown f))) :
    run x modules fail b = .returned false f none none := by
  unfold run run_try
  rcases h with h | ⟨b2, h1, h2⟩ | ⟨b2, b3, h1, h2, h3⟩
  · simp [bind, Except.bind, h]
  · simp [bind, Except.bind, h1, h2]
  · simp [bind, Except.bind, h1, h2, h3]

theorem run_catches_fail_witness :
    run sample_env sample_program no_fail llb_backend_cpp_t.new
      = .returned false sample_fail none none :=
  run_catches_fail sample_env sample_program no_fail sample_fail llb_backend_cpp_t.new
    (Or.inr (Or.inr ⟨_, _, rfl, rfl, rfl⟩))

/-- C6: with a destination that cannot be opened, `run` over the empty program returns
`false` and writes nothing, and its fail output is the value the caller passed in,
whatever that was: no I/O failure is recorded in it. -/
theorem run_unopened_keeps_fail (fail : llb_fail_t) :
    run sample_env_unwritable empty_program fail llb_backend_cpp_t.new
      = .returned false fail none
          (some { llb_backend_cpp_t.new with cxt_ := some empty_program, out_ := header_text }) := by
  rfl

end llb_backend_cpp

namespace llb_backend_cpp
open llb_frontend (token_type_t token_t float_t llb_fail_t location_t fault)

/-- C8: for every function declaration (name, return type, arguments), with `rest`
the text `<return-type> <name>(<parameters>)`: the header `emit_decl` appends is
`extern ` then `rest` when the function has no body and `static ` then `rest` when it
has one.  The forward-declaration sweep `emit_decls` of any module appends, after the
banner, one line per entry of `functions_`, and that line is `extern ` + `rest` + `;`
for a function without a body and `static ` + `rest` + `;` for one with a body.  The
body sweep `emit_impls` of any module appends one block per entry of `functions_`: the
empty text for a function without a body, and the `static ` header, ` {`, the body
text and `}` for one with a body.  For a module of two functions, the first without and
the second with a body, the forward-declaration sweep appends the banner, the `extern`
line, the `static` line and an empty line, and the body sweep appends only the block
of the second, with the `static ` header. -/
theorem declaration_storage (x : env_t) (b : llb_backend_cpp_t) (module : pt_module_t)
    (name_ ret_type_ : token_t) (args_ locals_ stmt_ globals_ : List pt_node_t)
    (body_ : pt_node_t) (module_name : String) :
    let rest : Except fault String := do
      let ret_type ← ret_type_.get_string
      let name ← name_.get_string
      let args ← args_text true args_
      pure (ret_type ++ " " ++ name ++ "(" ++ args ++ ")")
    let external : pt_node_t := .pt_function_decl_t name_ ret_type_ args_ none
    let defined : pt_node_t :=
      .pt_function_decl_t name_ ret_type_ args_ (some (.pt_function_body_t locals_ stmt_))
    -- the header
    appends b (emit_decl ⟨name_, ret_type_, args_, none⟩) (rest.map (fun s => "extern " ++ s)) ∧
    appends b (emit_decl ⟨name_, ret_type_, args_, some body_⟩)
      (rest.map (fun s => "static " ++ s)) ∧
    -- the forward-declaration sweep
    appends b (emit_decls module)
      (if module.functions_.length = 0 then .ok ""
       else (blocks decl_line module.functions_).map
        (fun lines => "// decls from '" ++ module.name_ ++ "'\n" ++ lines ++ "\n")) ∧
    decl_line external = rest.map (fun s => "extern " ++ s ++ ";\n") ∧
    decl_line (.pt_function_decl_t name_ ret_type_ args_ (some body_))
      = rest.map (fun s => "static " ++ s ++ ";\n") ∧
    appends b (emit_decls ⟨module_name, [external, defined], globals_⟩)
      (rest.map (fun s => "// decls from '" ++ module_name ++ "'\n"
        ++ ("extern " ++ s ++ ";\n" ++ ("static " ++ s ++ ";\n")) ++ "\n")) ∧
    appends b (emit_decls_step external) (rest.map (fun s => "extern " ++ s ++ ";\n")) ∧
    appends b (emit_decls_step (.pt_function_decl_t name_ ret_type_ args_ (some body_)))
      (rest.map (fun s => "static " ++ s ++ ";\n")) ∧
    -- the body sweep
    appends b (emit_impls x module) (blocks (impl_block x b.indent_) module.functions_) ∧
    impl_block x b.indent_ external = .ok "" ∧
    impl_block x b.indent_ defined = (do
        let s ← rest
        let text ← body_text x b.indent_ ⟨locals_, stmt_⟩
        pure ("static " ++ s ++ " \x7b\n" ++ text ++ "\x7d\n\n")) ∧
    appends b (emit_impls x ⟨module_name, [external, defined], globals_⟩) (do
        let s ← rest
        let text ← body_text x b.indent_ ⟨locals_, stmt_⟩
        pure ("static " ++ s ++ " \x7b\n" ++ text ++ "\x7d\n\n")) ∧
    emit_impls_step x external b = .ok b ∧
    appends b (emit_impls_step x defined) (do
        let s ← rest
        let text ← body_text x b.indent_ ⟨locals_, stmt_⟩
        pure ("static " ++ s ++ " \x7b\n" ++ text ++ "\x7d\n\n")) := by
  intro rest external defined
  have hnone : decl_text ⟨name_, ret_type_, args_, none⟩ = rest.map (fun s => "extern " ++ s) := by
    simp only [decl_text, rest, storage, bind, Except.bind]
    cases ret_type_.get_string <;> simp only [Except.map]
    cases name_.get_string <;> simp only [Except.map]
    cases args_text true args_ <;>
      simp [Except.map, pure, Except.pure, String.append_assoc]
  have hsome : ∀ body_ : pt_node_t,
      decl_text ⟨name_, ret_type_, args_, some body_⟩ = rest.map (fun s => "static " ++ s) := by
    intro body_
    simp only [decl_text, rest, storage, bind, Except.bind]
    cases ret_type_.get_string <;> simp only [Except.map]
    cases name_.get_string <;> simp only [Except.map]
    cases args_text true args_ <;>
      simp [Except.map, pure, Except.pure, String.append_assoc]
  have hline_none : decl_line external = rest.map (fun s => "extern " ++ s ++ ";\n") := by
    simp only [external, decl_line, as_function_decl, upcast_pt_function_decl_t, bind,
      Except.bind, hnone]
    cases rest <;> simp [Except.map, pure, Except.pure]
  have hline_some : ∀ body_ : pt_node_t,
      decl_line (.pt_function_decl_t name_ ret_type_ args_ (some body_))
        = rest.map (fun s => "static " ++ s ++ ";\n") := by
    intro body_
    simp only [decl_line, as_function_decl, upcast_pt_function_decl_t, bind, Except.bind,
      hsome]
    cases rest <;> simp [Except.map, pure, Except.pure]
  have hblock_none : impl_block x b.indent_ external = .ok "" := rfl
  have hblock_some : impl_block x b.indent_ defined = (do
      let s ← rest
      let text ← body_text x b.indent_ ⟨locals_, stmt_⟩
      pure ("static " ++ s ++ " \x7b\n" ++ text ++ "\x7d\n\n")) := by
    simp only [defined, impl_block, as_function_decl, upcast_pt_function_decl_t,
      as_function_body, upcast_pt_function_body_t, bind, Except.bind, hsome]
    cases rest with
    | error err => simp [Except.map]
    | ok s => simp only [Except.map]
  refine ⟨?_, ?_, emit_decls_appends b module, hline_none, hline_some body_, ?_, ?_, ?_,
    emit_impls_appends x b module, hblock_none, hblock_some, ?_, rfl, ?_⟩
  · rw [← hnone]; exact emit_decl_appends b _
  · rw [← hsome]; exact emit_decl_appends b _
  · have h := emit_decls_appends b ⟨module_name, [external, defined], globals_⟩
    have e : decls_text ⟨module_name, [external, defined], globals_⟩
        = rest.map (fun s => "// decls from '" ++ module_name ++ "'\n"
          ++ ("extern " ++ s ++ ";\n" ++ ("static " ++ s ++ ";\n")) ++ "\n") := by
      have hd : decl_line defined = rest.map (fun s => "static " ++ s ++ ";\n") :=
        hline_some _
      simp only [decls_text, blocks, hline_none, hd, bind, Except.bind]
      cases rest with
      | error err => simp [Except.map]
      | ok s => simp [Except.map, pure, Except.pure]
    rw [← e]; exact h
  · rw [← hline_none]; exact emit_decls_step_appends b external
  · rw [← hline_some body_]; exact emit_decls_step_appends b _
  · have h := emit_impls_appends x b ⟨module_name, [external, defined], globals_⟩
    have e : impls_text x b.indent_ ⟨module_name, [external, defined], globals_⟩
        = (do
          let s ← rest
          let text ← body_text x b.indent_ ⟨locals_, stmt_⟩
          pure ("static " ++ s ++ " \x7b\n" ++ text ++ "\x7d\n\n")) := by
      simp only [impls_text, blocks, hblock_none, hblock_some, bind, Except.bind]
      cases rest with
      | error err => rfl
      | ok s =>
        simp only []
        cases body_text x b.indent_ ⟨locals_, stmt_⟩ with
        | error err => rfl
        | ok text => simp [pure, Except.pure]
    rw [← e]; exact h
  · rw [← hblock_some]; exact emit_impls_step_appends x b defined

end llb_backend_cpp

namespace llb_backend_cpp
open llb_frontend (token_type_t token_t float_t llb_fail_t location_t fault)

/-- C9: for every function body, `emit_body` appends first the lines of the resolved
locals, one line `<indentation><type> <name>;` per entry of `locals_` in list order,
and only then the lines of the statements, one line `<indentation><text>` per entry of
`stmt_` in list order, both one nesting level deeper than the backend was; so for a
body of three statements `s1`, `s2`, `s3` (whatever nodes they are, for instance
`x = 1;`, `var y: int;`, `y = x;`) with the single resolved local `y` of type `int`,
the line `int y;` comes before the lines of all three statements.  The member
`emit_locals` returns the backend unchanged. -/
theorem emit_body_hoists_locals (x : env_t) (b : llb_backend_cpp_t)
    (body : pt_function_body_t) (name type : String) (expr : Option pt_node_t)
    (s1 s2 s3 : pt_node_t) :
    appends b (emit_body x body) (do
      let locals ← blocks (local_line (b.indent_ + 1)) body.locals_
      let stmts ← blocks (stmt_line x (b.indent_ + 1)) body.stmt_
      pure (locals ++ stmts)) ∧
    local_line (b.indent_ + 1) (.pt_decl_var_t (identifier name) (identifier type) expr)
      = .ok (indentation (b.indent_ + 1) ++ type ++ " " ++ name ++ ";\n") ∧
    stmt_line x (b.indent_ + 1) s1
      = (lower x s1).map (fun text => indentation (b.indent_ + 1) ++ text ++ "\n") ∧
    appends b
      (emit_body x ⟨[.pt_decl_var_t (identifier "y") (identifier "int") none], [s1, s2, s3]⟩)
      (do
        let t1 ← lower x s1
        let t2 ← lower x s2
        let t3 ← lower x s3
        pure (indentation (b.indent_ + 1) ++ "int y;\n"
          ++ indentation (b.indent_ + 1) ++ t1 ++ "\n"
          ++ indentation (b.indent_ + 1) ++ t2 ++ "\n"
          ++ indentation (b.indent_ + 1) ++ t3 ++ "\n")) ∧
    emit_locals body b = .ok b := by
  refine ⟨emit_body_appends x b body, rfl, rfl, ?_, emit_locals_eq body b⟩
  have h := emit_body_appends x b
    ⟨[.pt_decl_var_t (identifier "y") (identifier "int") none], [s1, s2, s3]⟩
  have e : body_text x b.indent_
      ⟨[.pt_decl_var_t (identifier "y") (identifier "int") none], [s1, s2, s3]⟩
      = (do
        let t1 ← lower x s1
        let t2 ← lower x s2
        let t3 ← lower x s3
        pure (indentation (b.indent_ + 1) ++ "int y;\n"
          ++ indentation (b.indent_ + 1) ++ t1 ++ "\n"
          ++ indentation (b.indent_ + 1) ++ t2 ++ "\n"
          ++ indentation (b.indent_ + 1) ++ t3 ++ "\n")) := by
    have hl : local_line (b.indent_ + 1)
        (.pt_decl_var_t (identifier "y") (identifier "int") none)
        = .ok (indentation (b.indent_ + 1) ++ "int" ++ " " ++ "y" ++ ";\n") := rfl
    simp only [body_text, blocks, stmt_line, hl, bind, Except.bind]
    cases lower x s1 with
    | error err => simp [Except.map, pure, Except.pure]
    | ok t1 =>
      cases lower x s2 with
      | error err => simp [Except.map, pure, Except.pure]
      | ok t2 =>
        cases lower x s3 with
        | error err => simp [Except.map, pure, Except.pure]
        | ok t3 =>
          simp only [Except.map, pure, Except.pure, String.append_assoc, String.append_empty]
          rfl
  rw [← e]
  exact h

/-- C10: for every BinaryOp node with operator `op` and operands `l` and `r`, the
visit handler appends the text of `l`, the printable symbol of `op` and the text of
`r`, with one `(` before and one `)` after exactly when `op` is not the assignment
token; with `=` the symbol of assignment and `+` the symbol of a token `plus`, the
node `a = b + c` (an assignment whose right operand is the binary `b + c`) has the
text `a=(b+c)`. -/
theorem visit_op_bin_text (x : env_t) (b : llb_backend_cpp_t) (op : token_t)
    (l r : pt_node_t) (assign plus : token_t)
    (hassign : assign.type_ = .tok_chr_assign) (hplus : plus.type_ ≠ .tok_chr_assign)
    (hsym_assign : x.get_type_symbol assign.type_ = "=")
    (hsym_plus : x.get_type_symbol plus.type_ = "+") :
    appends b (accept x (.pt_op_bin_t op l r)) (do
      let tl ← lower x l
      let tr ← lower x r
      pure (if op.type_ = .tok_chr_assign
        then tl ++ x.get_type_symbol op.type_ ++ tr
        else "(" ++ tl ++ x.get_type_symbol op.type_ ++ tr ++ ")")) ∧
    lower x (.pt_op_bin_t assign (.pt_identifier_t (identifier "a"))
      (.pt_op_bin_t plus (.pt_identifier_t (identifier "b")) (.pt_identifier_t (identifier "c"))))
      = .ok "a=(b+c)" := by
  constructor
  · exact accept_op_bin_appends x op l r _ _ (accept_appends x l) (accept_appends x r) b
  · have hplus_text := text_of_eq (accept_op_bin_appends x plus
      (.pt_identifier_t (identifier "b")) (.pt_identifier_t (identifier "c")) _ _
      (accept_identifier_appends x (identifier "b"))
      (accept_identifier_appends x (identifier "c")) llb_backend_cpp_t.new)
    have hall := text_of_eq (accept_op_bin_appends x assign
      (.pt_identifier_t (identifier "a"))
      (.pt_op_bin_t plus (.pt_identifier_t (identifier "b")) (.pt_identifier_t (identifier "c")))
      _ _ (accept_identifier_appends x (identifier "a"))
      (fun b0 => by
        have h := accept_appends x (.pt_op_bin_t plus (.pt_identifier_t (identifier "b"))
          (.pt_identifier_t (identifier "c"))) b0
        exact h) llb_backend_cpp_t.new)
    unfold lower
    rw [hall]
    unfold lower
    rw [hplus_text]
    have ha : (identifier "a").get_string = .ok "a" := rfl
    have hb : (identifier "b").get_string = .ok "b" := rfl
    have hc : (identifier "c").get_string = .ok "c" := rfl
    simp only [ha, hb, hc, bind, Except.bind, pure, Except.pure, hassign, hplus, if_true,
      if_false, hsym_plus]
    rw [← hassign, hsym_assign]
    rfl

theorem visit_op_bin_text_witness :
    appends llb_backend_cpp_t.new
      (accept sample_env (.pt_op_bin_t (token_t.new (.tok_other 0)) .pt_break_t .pt_continue_t))
      (do
        let tl ← lower sample_env .pt_break_t
        let tr ← lower sample_env .pt_continue_t
        pure (if (token_t.new (.tok_other 0)).type_ = .tok_chr_assign
          then tl ++ sample_env.get_type_symbol (token_t.new (.tok_other 0)).type_ ++ tr
          else "(" ++ tl ++ sample_env.get_type_symbol (token_t.new (.tok_other 0)).type_
            ++ tr ++ ")")) ∧
    lower sample_env (.pt_op_bin_t (token_t.new .tok_chr_assign)
      (.pt_identifier_t (identifier "a"))
      (.pt_op_bin_t (token_t.new (.tok_other 0)) (.pt_identifier_t (identifier "b"))
        (.pt_identifier_t (identifier "c"))))
      = .ok "a=(b+c)" :=
  visit_op_bin_text sample_env llb_backend_cpp_t.new (token_t.new (.tok_other 0))
    .pt_break_t .pt_continue_t (token_t.new .tok_chr_assign) (token_t.new (.tok_other 0))
    rfl (by decide) rfl rfl

end llb_backend_cpp

namespace llb_frontend

/-! ## The token list -/

theorem head_of_cursor {l : token_list_t} {tok : token_t} (hcur : l.list_[l.index_]? = some tok) :
    l.head = .ok tok := by
  simp [token_list_t.head, hcur]

theorem index_of_cursor {l : token_list_t} {tok : token_t}
    (hcur : l.list_[l.index_]? = some tok) : l.index_ < l.list_.length := by
  rcases Nat.lt_or_ge l.index_ l.list_.length with h | h
  · exact h
  · rw [List.getElem?_eq_none h] at hcur; cases hcur

theorem next_index_eq (l : token_list_t) (tok : token_t)
    (hcur : l.list_[l.index_]? = some tok) (hfit : l.list_.length < 2 ^ 32) :
    (l.index_ + 1) % 2 ^ 32 = l.index_ + 1 := by
  have := index_of_cursor hcur
  exact Nat.mod_eq_of_lt (by omega)

/-- What `found(type)` does with the cursor on a token `head`: false and nothing
changed when `head` is not of type `type`; otherwise `index_++` and then the `assert`
that the cursor is in the list. -/
theorem found_cases (type : token_type_t) (l : token_list_t) (head : token_t)
    (hcur : l.list_[l.index_]? = some head) :
    (head.type_ ≠ type → l.found type = .ok (false, l)) ∧
    (head.type_ = type → (l.index_ + 1) % 2 ^ 32 < l.list_.length →
      l.found type = .ok (true, { l with index_ := (l.index_ + 1) % 2 ^ 32 })) ∧
    (head.type_ = type → ¬ (l.index_ + 1) % 2 ^ 32 < l.list_.length →
      l.found type = .error .assertion) := by
  have hh := head_of_cursor hcur
  refine ⟨?_, ?_, ?_⟩
  · intro hne
    simp [token_list_t.found, hh, bind, Except.bind, hne]
  · intro he hnext
    simp only [token_list_t.found, hh, bind, Except.bind, he, hnext, ne_eq,
      not_true_eq_false, if_false, if_true]
  · intro he hlast
    simp only [token_list_t.found, hh, bind, Except.bind, he, hlast, ne_eq,
      not_true_eq_false, if_false]

/-- C13, as stated, fails: on the list that holds one identifier and no terminal
marker, the cursor is in bounds, but `pop()` does not return: the token is not the
terminal marker, the cursor leaves the list and the `assert` fails. -/
theorem pop_at_last_token_asserts :
    (token_list_t.mk 0 [token_t.new .tok_identifier]).index_
      < (token_list_t.mk 0 [token_t.new .tok_identifier]).list_.length ∧
    (token_list_t.mk 0 [token_t.new .tok_identifier]).pop = .error .assertion := by
  constructor
  · decide
  · rfl

theorem pops_at_eof (l : token_list_t) (tok : token_t) (h : l.pop = .ok (tok, l)) (n : Nat) :
    l.pops n = .ok (List.replicate n tok, l) := by
  induction n with
  | zero => rfl
  | succ k ih => simp [token_list_t.pops, h, ih, bind, Except.bind, pure, Except.pure, List.replicate]

/-- What `pop()` does with the cursor on a token `tok`. -/
theorem pop_cases (l : token_list_t) (tok : token_t)
    (hcur : l.list_[l.index_]? = some tok) :
    (tok.type_ = .tok_eof →
      l.pop = .ok (tok, l) ∧ ∀ n, l.pops n = .ok (List.replicate n tok, l)) ∧
    (tok.type_ ≠ .tok_eof → (l.index_ + 1) % 2 ^ 32 < l.list_.length →
      l.pop = .ok (tok, { l with index_ := (l.index_ + 1) % 2 ^ 32 })) ∧
    (tok.type_ ≠ .tok_eof → ¬ (l.index_ + 1) % 2 ^ 32 < l.list_.length →
      l.pop = .error .assertion) ∧
    (l.list_.length < 2 ^ 32 → (l.index_ + 1) % 2 ^ 32 = l.index_ + 1) := by
  have hh := head_of_cursor hcur
  have hin := index_of_cursor hcur
  refine ⟨?_, ?_, ?_, next_index_eq l tok hcur⟩
  · intro he
    have hpop : l.pop = .ok (tok, l) := by
      simp [token_list_t.pop, hh, bind, Except.bind, he, hin]
    exact ⟨hpop, pops_at_eof l tok hpop⟩
  · intro hne hnext
    simp only [token_list_t.pop, hh, bind, Except.bind, hne, hnext, ne_eq,
      not_false_eq_true, if_true]
  · intro hne hlast
    simp only [token_list_t.pop, hh, bind, Except.bind, hne, hlast, ne_eq,
      not_false_eq_true, if_true, if_false]

/-- C13, amended: for every token list whose cursor is on a token `tok`: if `tok` is
the terminal marker, `pop()` returns `tok` and leaves the cursor where it is, so any
number of pops in a row return the terminal marker each time; if `tok` is not the
terminal marker and the next position is inside the list, `pop()` returns `tok` and
the cursor is one further; if `tok` is not the terminal marker and the next position
is outside the list (`tok` is the last token), the `assert` fails.  The token sequence
is never changed.  "One further" is `index_++` on a `uint32_t`; for a list of fewer
than `2 ^ 32` tokens that is `index_ + 1`. -/
theorem pop_spec (l : token_list_t) (tok : token_t)
    (hcur : l.list_[l.index_]? = some tok) :
    (tok.type_ = .tok_eof →
      l.pop = .ok (tok, l) ∧ ∀ n, l.pops n = .ok (List.replicate n tok, l)) ∧
    (tok.type_ ≠ .tok_eof → (l.index_ + 1) % 2 ^ 32 < l.list_.length →
      l.pop = .ok (tok, { l with index_ := (l.index_ + 1) % 2 ^ 32 })) ∧
    (tok.type_ ≠ .tok_eof → ¬ (l.index_ + 1) % 2 ^ 32 < l.list_.length →
      l.pop = .error .assertion) ∧
    (l.list_.length < 2 ^ 32 → (l.index_ + 1) % 2 ^ 32 = l.index_ + 1) :=
  pop_cases l tok hcur

theorem pop_spec_witness :
    (token_list_t.mk 1 [token_t.new .tok_identifier, token_t.new .tok_eof]).pops 3
      = .ok ([token_t.new .tok_eof, token_t.new .tok_eof, token_t.new .tok_eof],
          token_list_t.mk 1 [token_t.new .tok_identifier, token_t.new .tok_eof]) :=
  ((pop_spec (token_list_t.mk 1 [token_t.new .tok_identifier, token_t.new .tok_eof])
    (token_t.new .tok_eof) rfl).1 rfl).2 3

/-! ## Token payloads -/

/-- C14: for every token, `get_int` returns the integer payload when the type is
integer literal and is an internal-error failure otherwise, `get_float` likewise for
float literal, `get_string` likewise for string literal or identifier; the setters
store under the same condition and fail otherwise; and a setter followed by the getter
of the same payload returns the value set when the type matches (and fails when it
does not). -/
theorem payload_access_gated (t : token_t) (i : Int) (f : float_t) (s : String) :
    (t.get_int = if t.type_ = .tok_lit_integer then .ok t.value_.int_ else .error .assertion) ∧
    (t.get_float = if t.type_ = .tok_lit_float then .ok t.value_.float_ else .error .assertion) ∧
    (t.get_string = if t.type_ = .tok_lit_string ∨ t.type_ = .tok_identifier
      then .ok t.value_.string_ else .error .assertion) ∧
    (t.set_int i = if t.type_ = .tok_lit_integer
      then .ok { t with value_ := { t.value_ with int_ := i } } else .error .assertion) ∧
    (t.set_float f = if t.type_ = .tok_lit_float
      then .ok { t with value_ := { t.value_ with float_ := f } } else .error .assertion) ∧
    (t.set_string s = if t.type_ = .tok_lit_string ∨ t.type_ = .tok_identifier
      then .ok { t with value_ := { t.value_ with string_ := s } } else .error .assertion) ∧
    ((t.set_int i).bind token_t.get_int
      = if t.type_ = .tok_lit_integer then .ok i else .error .assertion) ∧
    ((t.set_float f).bind token_t.get_float
      = if t.type_ = .tok_lit_float then .ok f else .error .assertion) ∧
    ((t.set_string s).bind token_t.get_string
      = if t.type_ = .tok_lit_string ∨ t.type_ = .tok_identifier then .ok s
        else .error .assertion) := by
  obtain ⟨type_, value_, line_, column_⟩ := t
  cases type_ <;>
    simp [token_t.get_int, token_t.get_float, token_t.get_string, token_t.set_int,
      token_t.set_float, token_t.set_string, Except.bind]

/-! ## The program container -/

theorem top_push (stack : List pt_node_t) (n : pt_node_t) :
    pt_t.top ⟨stack ++ [n]⟩ = .ok n := by
  simp [pt_t.top]

/-- C18: for every container `c` and node `n`: `push(n)` appends `n` to the sequence,
after which `top()` is `n` and `index()` is one more than before in `uint32_t`
arithmetic (one more as a number unless it was `2 ^ 32 - 1`, where it wraps to 0); `pop()` on the non-empty container returns the node pushed last, leaves the
sequence as it was before that push, and `index()` is one less; `top()` is a function
of the container and returns only a node, so it changes nothing; `pop()` and `top()`
on the empty container, and `push` of a null pointer, are assertion failures. -/
theorem container_stack_laws (c : pt_t) (n : pt_node_t) :
    pt_t.push (some n) c = .ok ⟨c.stack_ ++ [n]⟩ ∧
    pt_t.top ⟨c.stack_ ++ [n]⟩ = .ok n ∧
    pt_t.index ⟨c.stack_ ++ [n]⟩ = (c.index + 1) % 2 ^ 32 ∧
    pt_t.index ⟨c.stack_ ++ [n]⟩ = (if c.index + 1 < 2 ^ 32 then c.index + 1 else 0) ∧
    pt_t.pop ⟨c.stack_ ++ [n]⟩ = .ok (n, c) ∧
    ((pt_t.push (some n) c).bind pt_t.pop = .ok (n, c)) ∧
    pt_t.pop ⟨[]⟩ = .error .assertion ∧
    pt_t.top ⟨[]⟩ = .error .assertion ∧
    pt_t.push none c = .error .assertion := by
  refine ⟨rfl, top_push _ _, ?_, ?_, ?_, ?_, rfl, rfl, rfl⟩
  · simp [pt_t.index, Nat.add_mod]
  · have hlt : c.stack_.length % 2 ^ 32 < 2 ^ 32 := Nat.mod_lt _ (by decide)
    have hadd : (c.stack_.length + 1) % 2 ^ 32 = (c.stack_.length % 2 ^ 32 + 1) % 2 ^ 32 := by
      simp [Nat.add_mod]
    simp only [pt_t.index, List.length_append, List.length_singleton]
    rw [hadd]
    split
    · rename_i h
      exact Nat.mod_eq_of_lt h
    · rename_i h
      have he : c.stack_.length % 2 ^ 32 + 1 = 2 ^ 32 := by omega
      rw [he]
      exact Nat.mod_self _
  · simp [pt_t.pop, top_push, bind, Except.bind, pure, Except.pure]
  · simp [pt_t.push, Except.bind, pt_t.pop, top_push, bind, pure, Except.pure]

/-! ## The constructor of `pt_decl_var_t` -/

/-- C20: whatever scope argument the constructor of `pt_decl_var_t` is given, the
node's `scope_` is `e_unknown`; for the arguments `e_global`, `e_local` and `e_arg` it
is therefore not the argument. -/
theorem decl_var_scope_dropped (scope : scope_t) (name type : token_t)
    (expr : Option pt_node_t) :
    (pt_node_t.new_pt_decl_var_t scope name type expr).scope_ = some .e_unknown ∧
    (pt_node_t.new_pt_decl_var_t .e_global name type expr).scope_ ≠ some .e_global ∧
    (pt_node_t.new_pt_decl_var_t .e_local name type expr).scope_ ≠ some .e_local ∧
    (pt_node_t.new_pt_decl_var_t .e_arg name type expr).scope_ ≠ some .e_arg := by
  refine ⟨rfl, ?_, ?_, ?_⟩ <;> simp [pt_node_t.new_pt_decl_var_t, pt_node_t.scope_]

end llb_frontend

namespace llb_backend_cpp
open llb_frontend (token_type_t token_t float_t llb_fail_t location_t fault)

/-! ## The sweeps of one module -/

theorem args_text_cons (first : Bool) (a : pt_node_t) (rest : List pt_node_t) :
    args_text first (a :: rest) = (do
      let p ← param_text a
      let more ← args_text false rest
      pure ((if first then "" else ", ") ++ p ++ more)) := by
  simp only [args_text, param_text, bind, Except.bind]
  cases as_decl_var a with
  | error e => rfl
  | ok var =>
    simp only []
    cases var.type_.get_string with
    | error e => rfl
    | ok ty =>
      simp only []
      cases var.name_.get_string with
      | error e => rfl
      | ok nm =>
        simp only [pure, Except.pure]
        cases args_text false rest with
        | error e => rfl
        | ok more => simp only [String.append_assoc]

theorem separated_cons (sep p q : String) (ps : List String) :
    separated sep (p :: q :: ps) = p ++ sep ++ separated sep (q :: ps) := rfl

theorem args_text_false (l : List pt_node_t) (p : String) :
    (args_text false l).map (fun more => p ++ more)
      = (each param_text l).map (fun ps => separated ", " (p :: ps)) := by
  induction l generalizing p with
  | nil => simp [args_text, each, Except.map, separated]
  | cons a rest ih =>
    rw [args_text_cons]
    simp only [each, bind, Except.bind]
    cases param_text a with
    | error e => rfl
    | ok t =>
      simp only []
      have h := ih t
      cases hm : args_text false rest with
      | error e =>
        rw [hm] at h
        cases he : each param_text rest with
        | error e' =>
          rw [he] at h
          simp only [Except.map] at h
          simp only [Except.map]
          exact h
        | ok ts => rw [he] at h; simp [Except.map] at h
      | ok more =>
        rw [hm] at h
        cases he : each param_text rest with
        | error e' => rw [he] at h; simp [Except.map] at h
        | ok ts =>
          rw [he] at h
          simp only [Except.map, Except.ok.injEq] at h
          simp only [Except.map, pure, Except.pure, Bool.false_eq_true, if_false,
            separated_cons, ← h, String.append_assoc]

/-- The parameter list `emit_decl` emits is the parameter texts joined with `, `. -/
theorem args_text_true (l : List pt_node_t) :
    args_text true l = (each param_text l).map (separated ", ") := by
  cases l with
  | nil => rfl
  | cons a rest =>
    rw [args_text_cons]
    simp only [each, bind, Except.bind]
    cases param_text a with
    | error e => rfl
    | ok t =>
      simp only []
      have h := args_text_false rest t
      cases hm : args_text false rest with
      | error e =>
        rw [hm] at h
        cases he : each param_text rest with
        | error e' =>
          rw [he] at h
          simp only [Except.map] at h
          simp only [Except.map]
          exact h
        | ok ts => rw [he] at h; simp [Except.map] at h
      | ok more =>
        rw [hm] at h
        cases he : each param_text rest with
        | error e' => rw [he] at h; simp [Except.map] at h
        | ok ts =>
          rw [he] at h
          simp only [Except.map, Except.ok.injEq] at h
          simp only [Except.map, pure, Except.pure, if_true, ← h, String.empty_append]

theorem decl_line_eq (node : pt_node_t) : decl_line node = signature_line node := by
  simp only [decl_line, signature_line, decl_text, args_text_true, bind, Except.bind]
  cases as_function_decl node with
  | error e => rfl
  | ok decl =>
    simp only []
    cases decl.ret_type_.get_string with
    | error e => rfl
    | ok r =>
      simp only []
      cases decl.name_.get_string with
      | error e => rfl
      | ok n =>
        simp only []
        cases each param_text decl.args_ with
        | error e => rfl
        | ok ps =>
          simp only [Except.map, pure, Except.pure, String.append_assoc]
          rfl

theorem global_line_eq (node : pt_node_t) : global_line node = static_line node := by
  simp only [global_line, static_line, global_text, bind, Except.bind]
  cases as_decl_var node with
  | error e => rfl
  | ok decl =>
    simp only []
    cases decl.type_.get_string with
    | error e => rfl
    | ok ty =>
      simp only []
      cases decl.name_.get_string with
      | error e => rfl
      | ok nm => simp only [pure, Except.pure, String.append_assoc]

/-- C15: the declarations sweep of one module appends nothing when the module has no
functions; otherwise it appends the banner line `// decls from '<module name>'`, then
for each entry of `functions_`, in order, the line
`<storage> <return-type> <name>(<type1> <param1>, <type2> <param2>, ...);` with the
parameters in `args_` order joined by `, ` (nothing before the first or after the
last, `()` when there is none), then an empty line.  For the sample module this is the
banner, `extern int f(int a, float b);`, `static int g();` and the empty line. -/
theorem declarations_sweep (b : llb_backend_cpp_t) (module : pt_module_t) :
    appends b (emit_decls module)
      (if module.functions_.length = 0 then .ok ""
       else (blocks signature_line module.functions_).map
        (fun lines => "// decls from '" ++ module.name_ ++ "'\n" ++ lines ++ "\n")) ∧
    emit_decls bare_module b = .ok b ∧
    text_of (emit_decls sample_module) b
      = .ok "// decls from 'm'\nextern int f(int a, float b);\nstatic int g();\n\n" := by
  have hgen : ∀ m : pt_module_t, decls_text m
      = (if m.functions_.length = 0 then .ok ""
         else (blocks signature_line m.functions_).map
          (fun lines => "// decls from '" ++ m.name_ ++ "'\n" ++ lines ++ "\n")) := by
    intro m
    have hl : decl_line = signature_line := funext decl_line_eq
    simp only [decls_text, hl]
  refine ⟨?_, rfl, ?_⟩
  · rw [← hgen]; exact emit_decls_appends b module
  · rw [text_of_eq (emit_decls_appends b sample_module)]
    rfl

/-- C16: the globals sweep of one module appends nothing when the module has no
globals; otherwise it appends the banner line `// globals from '<module name>'`, then
for each entry of `globals_`, in order, the line `static <type> <name>;`, then an
empty line.  For the sample module this is the banner, `static int x;`,
`static float y;` and the empty line. -/
theorem globals_sweep (b : llb_backend_cpp_t) (module : pt_module_t) :
    appends b (emit_globals module)
      (if module.globals_.length = 0 then .ok ""
       else (blocks static_line module.globals_).map
        (fun lines => "// globals from '" ++ module.name_ ++ "'\n" ++ lines ++ "\n")) ∧
    emit_globals bare_module b = .ok b ∧
    text_of (emit_globals sample_module) b
      = .ok "// globals from 'm'\nstatic int x;\nstatic float y;\n\n" := by
  have hgen : ∀ m : pt_module_t, globals_text m
      = (if m.globals_.length = 0 then .ok ""
         else (blocks static_line m.globals_).map
          (fun lines => "// globals from '" ++ m.name_ ++ "'\n" ++ lines ++ "\n")) := by
    intro m
    have hl : global_line = static_line := funext global_line_eq
    simp only [globals_text, hl]
  refine ⟨?_, rfl, ?_⟩
  · rw [← hgen]; exact emit_globals_appends b module
  · rw [text_of_eq (emit_globals_appends b sample_module)]
    rfl

end llb_backend_cpp

namespace llb_backend_cpp
open llb_frontend (token_type_t token_t float_t llb_fail_t location_t fault)

/-! ## Literals and returns -/

/-- C11: for every Literal node the visit handler appends, by the kind of its token:
for a float literal the writer's text of the float payload followed by `f`; for an
integer literal the writer's text of the integer payload; for a string literal the
string payload as it is; for any other kind it is an assertion failure and nothing is
appended.  With a writer that renders the payloads as `3.14` and as decimal `42`, the
float literal emits `3.14f` and the integer literal `42`; the text literal `hi` emits
`hi`; a literal whose token is an identifier fails. -/
theorem visit_literal_text (x : env_t) (b : llb_backend_cpp_t) (value_ : token_t) :
    appends b (accept x (.pt_literal_t value_))
      (match value_.type_ with
      | .tok_lit_float => .ok (x.float_text value_.value_.float_ ++ "f")
      | .tok_lit_integer => .ok (x.int_text value_.value_.int_)
      | .tok_lit_string => .ok value_.value_.string_
      | _ => .error .assertion) ∧
    lower literal_env (.pt_literal_t (float_literal float_3_14)) = .ok "3.14f" ∧
    lower literal_env (.pt_literal_t (integer_literal 42)) = .ok "42" ∧
    lower x (.pt_literal_t (string_literal "hi")) = .ok "hi" ∧
    accept x (.pt_literal_t (identifier "hi")) b = .error .assertion := by
  have hgen : ∀ v : token_t, (match v.type_ with
      | .tok_lit_float => v.get_float.map (fun f => x.float_text f ++ "f")
      | .tok_lit_integer => v.get_int.map (fun i => x.int_text i)
      | .tok_lit_string => v.get_string
      | _ => .error .assertion : Except fault String)
      = (match v.type_ with
      | .tok_lit_float => .ok (x.float_text v.value_.float_ ++ "f")
      | .tok_lit_integer => .ok (x.int_text v.value_.int_)
      | .tok_lit_string => .ok v.value_.string_
      | _ => .error .assertion) := by
    intro v
    obtain ⟨type_, val, line_, column_⟩ := v
    cases type_ <;> simp [token_t.get_float, token_t.get_int, token_t.get_string, Except.map]
  refine ⟨?_, ?_, ?_, ?_, ?_⟩
  · rw [← hgen]; exact accept_literal_appends x value_ b
  · exact text_of_eq (accept_literal_appends literal_env _ _)
  · exact text_of_eq (accept_literal_appends literal_env _ _)
  · exact text_of_eq (accept_literal_appends x _ _)
  · simp [accept, identifier]

/-- C17: for every Return node the visit handler appends `return `, then the text of
the expression, then `;` when the expression is present, and `return ;` when it is
absent; `return a` has the text `return a;`. -/
theorem visit_return_text (x : env_t) (b : llb_backend_cpp_t) (e : pt_node_t) :
    appends b (accept x (.pt_return_t (some e)))
      ((lower x e).map (fun text => "return " ++ text ++ ";")) ∧
    appends b (accept x (.pt_return_t none)) (.ok "return ;") ∧
    lower x (.pt_return_t (some (.pt_identifier_t (identifier "a")))) = .ok "return a;" := by
  refine ⟨accept_return_some_appends x e _ (accept_appends x e) b,
    accept_return_none_appends x b, ?_⟩
  exact text_of_eq (accept_return_some_appends x _ _
    (accept_identifier_appends x (identifier "a")) _)

end llb_backend_cpp

namespace llb_frontend

/-! ## The cursor of the token list -/

theorem last_of_ready {l : token_list_t} (h : l.ready) :
    ∃ t, l.list_[l.list_.length - 1]? = some t ∧ t.type_ = .tok_eof := by
  obtain ⟨⟨t, ht, he⟩, _⟩ := h
  rw [List.getLast?_eq_getElem?] at ht
  exact ⟨t, ht, he⟩

/-- In a list that ends in the terminal marker, a token that is not a terminal marker
is not the last one. -/
theorem next_in_bounds {l : token_list_t} {tok : token_t} (h : l.ready)
    (hcur : l.list_[l.index_]? = some tok) (hne : tok.type_ ≠ .tok_eof) :
    (l.index_ + 1) % 2 ^ 32 < l.list_.length := by
  obtain ⟨t, ht, he⟩ := last_of_ready h
  have hin := h.2
  have hlt : l.index_ + 1 < l.list_.length := by
    rcases Nat.lt_or_ge (l.index_ + 1) l.list_.length with h1 | h1
    · exact h1
    · have hidx : l.index_ = l.list_.length - 1 := by omega
      rw [hidx, ht] at hcur
      cases hcur
      exact absurd he hne
  exact lt_of_le_of_lt (Nat.mod_le _ _) hlt

theorem cursor_of_ready {l : token_list_t} (h : l.ready) :
    ∃ tok, l.list_[l.index_]? = some tok := by
  cases hc : l.list_[l.index_]? with
  | some tok => exact ⟨tok, rfl⟩
  | none =>
    have hle := List.getElem?_eq_none_iff.mp hc
    have hin := h.2
    omega

/-- On a list that ends in the terminal marker, with the cursor in bounds, `pop()`
returns and leaves such a list. -/
theorem pop_ready (l : token_list_t) (h : l.ready) :
    ∃ tok l', l.pop = .ok (tok, l') ∧ l'.list_ = l.list_ ∧ l'.ready := by
  obtain ⟨tok, hcur⟩ := cursor_of_ready h
  have hs := pop_cases l tok hcur
  by_cases he : tok.type_ = .tok_eof
  · exact ⟨tok, l, (hs.1 he).1, rfl, h⟩
  · have hn := next_in_bounds h hcur he
    exact ⟨tok, _, hs.2.1 he hn, rfl, h.1, hn⟩

/-- On such a list `found(type)` returns and leaves such a list, for every `type` but
that of the terminal marker. -/
theorem found_ready (l : token_list_t) (type : token_type_t) (h : l.ready)
    (hty : type ≠ .tok_eof) :
    ∃ r l', l.found type = .ok (r, l') ∧ l'.list_ = l.list_ ∧ l'.ready := by
  obtain ⟨tok, hcur⟩ := cursor_of_ready h
  have hs := found_cases type l tok hcur
  by_cases he : tok.type_ = type
  · have hn := next_in_bounds h hcur (by rw [he]; exact hty)
    exact ⟨true, _, hs.2.1 he hn, rfl, h.1, hn⟩
  · exact ⟨false, l, hs.1 he, rfl, h⟩

/-- The cursor invariant, for the calls that keep it: from a list that ends in the
terminal marker with the cursor in bounds, every sequence of `pop()` and `found(type)`
calls in which no `found` asks for the terminal marker returns, with the token
sequence unchanged and the cursor in bounds. -/
theorem calls_keep_cursor (cs : List call_t) (l : token_list_t) (h : l.ready)
    (hcs : ∀ c ∈ cs, c ≠ .found .tok_eof) :
    ∃ l', l.calls cs = .ok l' ∧ l'.list_ = l.list_ ∧ l'.ready := by
  induction cs generalizing l with
  | nil => exact ⟨l, rfl, rfl, h⟩
  | cons c rest ih =>
    have hstep : ∃ l1, l.call c = .ok l1 ∧ l1.list_ = l.list_ ∧ l1.ready := by
      cases c with
      | pop =>
        obtain ⟨tok, l1, hp, hl, hr⟩ := pop_ready l h
        exact ⟨l1, by simp [token_list_t.call, hp, Except.map], hl, hr⟩
      | found type =>
        have hty : type ≠ .tok_eof := by
          intro e
          exact hcs (.found type) (List.mem_cons_self _ _) (by rw [e])
        obtain ⟨r, l1, hp, hl, hr⟩ := found_ready l type h hty
        exact ⟨l1, by simp [token_list_t.call, hp, Except.map], hl, hr⟩
    obtain ⟨l1, h1, hl1, hr1⟩ := hstep
    obtain ⟨l', h2, hl2, hr2⟩ := ih l1 hr1 (fun c hc => hcs c (List.mem_cons_of_mem _ hc))
    exact ⟨l', by simp [token_list_t.calls, h1, h2, bind, Except.bind], hl2.trans hl1, hr2⟩

/-- With the cursor on the terminal marker that ends a list of fewer than `2 ^ 32`
tokens, `found(tok_eof)` does not return: the `assert` after `index_++` fails. -/
theorem found_eof_at_marker (l : token_list_t) (h : l.ready)
    (hlast : l.index_ + 1 = l.list_.length) (hfit : l.list_.length < 2 ^ 32) :
    l.found .tok_eof = .error .assertion := by
  obtain ⟨t, ht, he⟩ := last_of_ready h
  have hidx : l.list_.length - 1 = l.index_ := by omega
  rw [hidx] at ht
  have hs := found_cases .tok_eof l t ht
  apply hs.2.2 he
  rw [next_index_eq l t ht hfit]
  omega

/-- C21: the sample list ends in the terminal marker and its cursor starts in bounds.
A sequence of calls without `found(tok_eof)` keeps the cursor in bounds, and `pop()`
on the terminal marker returns it and stays; but `found(tok_eof)` with the cursor on
the terminal marker moves the cursor out of the list and the in-bounds `assert`
fails, so the sequence `pop()`, `found(tok_eof)` does not keep the invariant. -/
theorem found_eof_breaks_cursor_invariant :
    sample_tokens.ready ∧
    (∃ l', sample_tokens.calls [.pop, .found .tok_identifier, .pop, .pop] = .ok l' ∧
      l'.list_ = sample_tokens.list_ ∧ l'.ready) ∧
    sample_tokens.calls [.pop] = .ok sample_tokens_at_marker ∧
    sample_tokens_at_marker.pop = .ok (token_t.new .tok_eof, sample_tokens_at_marker) ∧
    sample_tokens_at_marker.found .tok_eof = .error .assertion ∧
    sample_tokens.calls [.pop, .found .tok_eof] = .error .assertion := by
  have hready : sample_tokens.ready := ⟨⟨token_t.new .tok_eof, rfl, rfl⟩, by decide⟩
  have hmarker : sample_tokens_at_marker.ready := ⟨⟨token_t.new .tok_eof, rfl, rfl⟩, by decide⟩
  refine ⟨hready, calls_keep_cursor _ _ hready (by decide), rfl, rfl,
    found_eof_at_marker _ hmarker rfl (by decide), rfl⟩

end llb_frontend
